import Mathlib

/-!
Verification development for the NDS-Emulator ARM7 instruction core
(`src/core/src/arm7/arm.rs`), the timer subsystem (`src/core/src/hw/timers.rs`)
and the ARM9 memory dispatch (`src/core/src/hw/mem/arm9.rs`).

Machine integers are modelled as `Nat` with explicit reduction modulo `2^32`
(or `2^16` for timer counters).  Code that can `panic!` / `assert!` is modelled
as returning `Option`.  Helper routines of the emulator that live in files not
present under `src/` (the register file, the barrel shifter, the ALU flag
helpers, condition evaluation, the thumb buffer fill and the scheduler) are
modelled from the specification; each such definition carries a doc comment
starting with `Modelled from the spec:`.  Register banking is not modelled
(the register file implementation is not under `src/`); no theorem below
depends on banked registers.
-/

set_option maxRecDepth 10000

namespace NDS

/-- 2^32, the modulus of 32-bit machine arithmetic. -/
def M32 : Nat := 4294967296

/-- 2^64, the modulus of 64-bit machine arithmetic. -/
def M64 : Nat := 18446744073709551616

/-- Reduce to a 32-bit value (wrapping arithmetic). -/
def w32 (x : Nat) : Nat := x % M32

/-- Reduce to a 16-bit value. -/
def w16 (x : Nat) : Nat := x % 65536

/-- 32-bit rotate right, as `u32::rotate_right`. -/
def rotr32 (x n : Nat) : Nat :=
  let k := n % 32
  ((x >>> k) ||| ((x % M32) <<< (32 - k))) % M32

/-- 32-bit arithmetic shift right (sign-filling). -/
def asr32 (x n : Nat) : Nat :=
  let k := min n 32
  if x.testBit 31 then w32 ((x >>> k) + (M32 - (M32 >>> k))) else x >>> k

/-- Sign extension of an 8-bit value to 32 bits (`as i8 as u32`). -/
def sx8 (v : Nat) : Nat := if v < 128 then v else w32 (v + (M32 - 256))

/-- Sign extension of a 16-bit value to 32 bits (`as i16 as u32`). -/
def sx16 (v : Nat) : Nat := if v < 32768 then v else w32 (v + (M32 - 65536))

/-- Sign extension of a 32-bit value to 64 bits (`as i32 as u64`). -/
def sx64 (v : Nat) : Nat := if v < 2147483648 then v else v + (M64 - M32)

/-- Number of set bits, low-to-high with a fuel of 32 bits
(`u16::count_ones` for the 16-bit register list). -/
def countOnesAux : Nat → Nat → Nat
  | 0, _ => 0
  | fuel + 1, n => if n = 0 then 0 else n % 2 + countOnesAux fuel (n / 2)

/-- `u16::count_ones` of the register list. -/
def countOnes (n : Nat) : Nat := countOnesAux 32 n

/-- Byte memory: each byte is the stored `Nat` reduced mod 256; addresses wrap at 2^32. -/
def rdB (mem : Nat → Nat) (a : Nat) : Nat := mem (w32 a) % 256

/-- Little-endian 8-bit read. -/
def read8m (mem : Nat → Nat) (a : Nat) : Nat := rdB mem a

/-- Little-endian 16-bit read. -/
def read16m (mem : Nat → Nat) (a : Nat) : Nat :=
  rdB mem a + 256 * rdB mem (a + 1)

/-- Little-endian 32-bit read. -/
def read32m (mem : Nat → Nat) (a : Nat) : Nat :=
  rdB mem a + 256 * rdB mem (a + 1) + 65536 * rdB mem (a + 2) + 16777216 * rdB mem (a + 3)

/-- Store one byte. -/
def wrB (mem : Nat → Nat) (a v : Nat) : Nat → Nat :=
  fun x => if x = w32 a then v % 256 else mem x

/-- Little-endian 8-bit write. -/
def write8m (mem : Nat → Nat) (a v : Nat) : Nat → Nat := wrB mem a v

/-- Little-endian 16-bit write. -/
def write16m (mem : Nat → Nat) (a v : Nat) : Nat → Nat :=
  wrB (wrB mem a v) (a + 1) (v >>> 8)

/-- Little-endian 32-bit write. -/
def write32m (mem : Nat → Nat) (a v : Nat) : Nat → Nat :=
  wrB (wrB (wrB (wrB mem a v) (a + 1) (v >>> 8)) (a + 2) (v >>> 16)) (a + 3) (v >>> 24)

/-- Memory access type: non-sequential or sequential (`AccessType` in `hw`). -/
inductive Acc where
  | N
  | S
deriving DecidableEq

/-- Observable events issued by the execution engine: timed memory accesses,
internal cycles, and the multiply-clock charge. -/
inductive Ev where
  | rd (width : Nat) (acc : Acc) (addr : Nat)
  | wr (width : Nat) (acc : Acc) (addr : Nat) (val : Nat)
  | internal
  | mulClocks (op : Nat) (signed : Bool)
deriving DecidableEq

/-- Count of internal-cycle charges in a trace. -/
def internalCount (tr : List Ev) : Nat :=
  tr.countP (fun e => e = Ev.internal)

/-- Processor modes (`registers::Mode`); only the modes reached from the
sources under `src/` are distinguished. -/
inductive Mode where
  | USR
  | FIQ
  | IRQ
  | SVC
  | ABT
  | UND
  | SYS
deriving DecidableEq

/-- Modelled from the spec: the mode field encoded in the low five bits of the
status register (standard ARM encoding). -/
def modeOfBits (b : Nat) : Mode :=
  if b = 0x10 then .USR
  else if b = 0x11 then .FIQ
  else if b = 0x12 then .IRQ
  else if b = 0x13 then .SVC
  else if b = 0x17 then .ABT
  else if b = 0x1B then .UND
  else .SYS

/-- Modelled from the spec: the low five status-register bits of a mode. -/
def bitsOfMode : Mode → Nat
  | .USR => 0x10
  | .FIQ => 0x11
  | .IRQ => 0x12
  | .SVC => 0x13
  | .ABT => 0x17
  | .UND => 0x1B
  | .SYS => 0x1F

/-- The ARM7 core state: 15 general registers (`gpr`, indices 0-14), the
program counter (`pc`, read and written as register 15), current and saved
status registers, the current mode, the two-slot instruction buffer, byte
memory, the event trace, and the pending access-type override used by the
block transfer. -/
structure Arm7 where
  gpr : Nat → Nat
  pc : Nat
  cpsr : Nat
  spsr : Nat
  mode : Mode
  ibuf0 : Nat
  ibuf1 : Nat
  mem : Nat → Nat
  trace : List Ev
  nextAccess : Acc

namespace Arm7

/-- Modelled from the spec: `get_reg_i` — register 15 reads the program counter. -/
def get_reg_i (s : Arm7) (i : Nat) : Nat :=
  if i = 15 then s.pc else s.gpr i

/-- Modelled from the spec: `set_reg_i` — register 15 writes the program counter. -/
def set_reg_i (s : Arm7) (i v : Nat) : Arm7 :=
  if i = 15 then { s with pc := v }
  else { s with gpr := fun j => if j = i then v else s.gpr j }

/-- Set or clear one bit of the current status register. -/
def setCpsrBit (s : Arm7) (n : Nat) (b : Bool) : Arm7 :=
  if b then { s with cpsr := s.cpsr ||| (1 <<< n) }
  else { s with cpsr := s.cpsr &&& (0xFFFFFFFF ^^^ (1 <<< n)) }

/-- Modelled from the spec: negative flag (bit 31). -/
def set_n (s : Arm7) (b : Bool) : Arm7 := s.setCpsrBit 31 b

/-- Modelled from the spec: zero flag (bit 30). -/
def set_z (s : Arm7) (b : Bool) : Arm7 := s.setCpsrBit 30 b

/-- Modelled from the spec: carry flag (bit 29). -/
def set_c (s : Arm7) (b : Bool) : Arm7 := s.setCpsrBit 29 b

/-- Modelled from the spec: overflow flag (bit 28). -/
def set_v (s : Arm7) (b : Bool) : Arm7 := s.setCpsrBit 28 b

/-- Modelled from the spec: the thumb (compact instruction set) bit, bit 5. -/
def set_t (s : Arm7) (b : Bool) : Arm7 := s.setCpsrBit 5 b

/-- Modelled from the spec: the thumb bit read back. -/
def get_t (s : Arm7) : Bool := s.cpsr.testBit 5

/-- Modelled from the spec: the interrupt-disable bit, bit 7. -/
def set_i (s : Arm7) (b : Bool) : Arm7 := s.setCpsrBit 7 b

/-- Modelled from the spec: writing the whole current status register also
re-derives the visible mode from its low bits. -/
def setCPSR (s : Arm7) (v : Nat) : Arm7 :=
  { s with cpsr := v, mode := modeOfBits (v &&& 0x1F) }

/-- Modelled from the spec: `restore_cpsr` restores the current status
register from the saved status register. -/
def restore_cpsr (s : Arm7) : Arm7 := s.setCPSR s.spsr

/-- Modelled from the spec: `set_mode` switches the visible register bank;
banking itself is not modelled, only the mode field changes. -/
def set_mode (s : Arm7) (m : Mode) : Arm7 := { s with mode := m }

/-- Modelled from the spec: `change_mode` for exception entry — saves the
status register, switches mode and updates the mode bits. -/
def change_mode (s : Arm7) (m : Mode) : Arm7 :=
  { s with spsr := s.cpsr, mode := m,
           cpsr := (s.cpsr &&& 0xFFFFFFE0) ||| bitsOfMode m }

/-- Timed 8-bit read (`self.read::<u8>`). -/
def readU8 (s : Arm7) (acc : Acc) (a : Nat) : Nat × Arm7 :=
  (read8m s.mem a, { s with trace := s.trace ++ [Ev.rd 8 acc (w32 a)] })

/-- Timed 16-bit read (`self.read::<u16>`). -/
def readU16 (s : Arm7) (acc : Acc) (a : Nat) : Nat × Arm7 :=
  (read16m s.mem a, { s with trace := s.trace ++ [Ev.rd 16 acc (w32 a)] })

/-- Timed 32-bit read (`self.read::<u32>`). -/
def readU32 (s : Arm7) (acc : Acc) (a : Nat) : Nat × Arm7 :=
  (read32m s.mem a, { s with trace := s.trace ++ [Ev.rd 32 acc (w32 a)] })

/-- Timed 8-bit write (`self.write::<u8>`). -/
def writeU8 (s : Arm7) (acc : Acc) (a v : Nat) : Arm7 :=
  { s with mem := write8m s.mem a v, trace := s.trace ++ [Ev.wr 8 acc (w32 a) (v % 256)] }

/-- Timed 16-bit write (`self.write::<u16>`). -/
def writeU16 (s : Arm7) (acc : Acc) (a v : Nat) : Arm7 :=
  { s with mem := write16m s.mem a v, trace := s.trace ++ [Ev.wr 16 acc (w32 a) (w16 v)] }

/-- Timed 32-bit write (`self.write::<u32>`). -/
def writeU32 (s : Arm7) (acc : Acc) (a v : Nat) : Arm7 :=
  { s with mem := write32m s.mem a v, trace := s.trace ++ [Ev.wr 32 acc (w32 a) (w32 v)] }

/-- One internal cycle charge (`self.internal()`). -/
def internal (s : Arm7) : Arm7 := { s with trace := s.trace ++ [.internal] }

/-- Modelled from the spec: `inc_mul_clocks` charges the early-termination
multiply clocks; the charge is recorded as a single abstract trace event whose
cost depends only on the operand and its signedness. -/
def inc_mul_clocks (s : Arm7) (op : Nat) (signed : Bool) : Arm7 :=
  { s with trace := s.trace ++ [.mulClocks (w32 op) signed] }

/-- Modelled from the spec: `instruction_prefetch::<u32>` fetches the next
instruction word at the program counter into buffer slot 1. -/
def instruction_prefetch32 (s : Arm7) (acc : Acc) : Arm7 :=
  let (v, s) := s.readU32 acc (s.pc &&& 0xFFFFFFFC)
  { s with ibuf1 := v }

/-- `fill_arm_instr_buffer` from the source: align the program counter down to
a word boundary, fetch both buffer slots, leaving the counter one word past the
first fetch. -/
def fill_arm_instr_buffer (s : Arm7) : Arm7 :=
  let s := { s with pc := s.pc &&& 0xFFFFFFFC }
  let (v0, s) := s.readU32 .S (s.pc &&& 0xFFFFFFFC)
  let s := { s with ibuf0 := v0, pc := w32 (s.pc + 4) }
  let (v1, s) := s.readU32 .S (s.pc &&& 0xFFFFFFFC)
  { s with ibuf1 := v1 }

/-- Modelled from the spec: `fill_thumb_instr_buffer` — the compact-width
refill, halfword-aligned, advancing the counter by 2. -/
def fill_thumb_instr_buffer (s : Arm7) : Arm7 :=
  let s := { s with pc := s.pc &&& 0xFFFFFFFE }
  let (v0, s) := s.readU16 .S (s.pc &&& 0xFFFFFFFE)
  let s := { s with ibuf0 := v0, pc := w32 (s.pc + 2) }
  let (v1, s) := s.readU16 .S (s.pc &&& 0xFFFFFFFE)
  { s with ibuf1 := v1 }

/-- Modelled from the spec: the 4-bit condition field evaluated against the
N/Z/C/V flags (standard ARM condition table; 0xE always executes). -/
def should_exec (s : Arm7) (cond : Nat) : Bool :=
  let n := s.cpsr.testBit 31
  let z := s.cpsr.testBit 30
  let c := s.cpsr.testBit 29
  let v := s.cpsr.testBit 28
  if cond = 0 then z
  else if cond = 1 then !z
  else if cond = 2 then c
  else if cond = 3 then !c
  else if cond = 4 then n
  else if cond = 5 then !n
  else if cond = 6 then v
  else if cond = 7 then !v
  else if cond = 8 then c && !z
  else if cond = 9 then !c || z
  else if cond = 10 then n == v
  else if cond = 11 then n != v
  else if cond = 12 then !z && (n == v)
  else if cond = 13 then z || (n != v)
  else if cond = 14 then true
  else false

/-- Modelled from the spec: the barrel shifter (`self.shift`) — LSL/LSR/ASR/ROR;
amount 0 leaves the operand unchanged; with `cs` the carry flag receives the
shifter carry-out. -/
def shiftOp (s : Arm7) (ty operand amount : Nat) (imm cs : Bool) : Nat × Arm7 :=
  let _ := imm
  if amount = 0 then (operand, s)
  else
    let r :=
      if ty = 0 then w32 (operand <<< amount)
      else if ty = 1 then operand >>> amount
      else if ty = 2 then asr32 operand amount
      else rotr32 operand (amount % 32)
    let carry : Bool :=
      if ty = 0 then (if amount ≤ 32 then operand.testBit (32 - amount) else false)
      else if ty = 1 then (if amount ≤ 32 then operand.testBit (amount - 1) else false)
      else if ty = 2 then operand.testBit (min 31 (amount - 1))
      else operand.testBit ((amount - 1) % 32)
    (r, if cs then s.set_c carry else s)

/-- Modelled from the spec: `self.sub` — the carry flag is set iff no borrow
occurred (minuend ≥ subtrahend unsigned); overflow per two's complement.
N and Z are set centrally by the data-processing handler. -/
def aluSub (s : Arm7) (a b : Nat) (cs : Bool) : Nat × Arm7 :=
  let r := w32 (a + (M32 - w32 b))
  if cs then
    let s := s.set_c (w32 b ≤ w32 a)
    let s := s.set_v ((a.testBit 31 != b.testBit 31) && (r.testBit 31 != a.testBit 31))
    (r, s)
  else (r, s)

/-- Modelled from the spec: `self.add` — carry from bit 31, signed overflow
when both operands share a sign the result does not. -/
def aluAdd (s : Arm7) (a b : Nat) (cs : Bool) : Nat × Arm7 :=
  let r := w32 (a + b)
  if cs then
    let s := s.set_c (M32 ≤ w32 a + w32 b)
    let s := s.set_v ((a.testBit 31 == b.testBit 31) && (r.testBit 31 != a.testBit 31))
    (r, s)
  else (r, s)

/-- Modelled from the spec: `self.adc` — add with carry-in. -/
def aluAdc (s : Arm7) (a b : Nat) (cs : Bool) : Nat × Arm7 :=
  let cin := if s.cpsr.testBit 29 then 1 else 0
  let r := w32 (a + b + cin)
  if cs then
    let s := s.set_c (M32 ≤ w32 a + w32 b + cin)
    let s := s.set_v ((a.testBit 31 == b.testBit 31) && (r.testBit 31 != a.testBit 31))
    (r, s)
  else (r, s)

/-- Modelled from the spec: `self.sbc` — subtract with borrow-in. -/
def aluSbc (s : Arm7) (a b : Nat) (cs : Bool) : Nat × Arm7 :=
  let borrow := if s.cpsr.testBit 29 then 0 else 1
  let r := w32 (a + (M32 - w32 b) + (M32 - borrow))
  if cs then
    let s := s.set_c (w32 b + borrow ≤ w32 a)
    let s := s.set_v ((a.testBit 31 != b.testBit 31) && (r.testBit 31 != a.testBit 31))
    (r, s)
  else (r, s)

/-- ARM.3: Branch and Exchange (BX). -/
def branch_and_exchange (s0 : Arm7) (instr : Nat) : Option Arm7 :=
  let s1 := s0.instruction_prefetch32 .N
  let s2 := { s1 with pc := s1.get_reg_i (instr &&& 0xF) }
  if s2.pc &&& 1 ≠ 0 then
    let s3 := { s2 with pc := s2.pc - 1 }
    let s4 := s3.set_t true
    some s4.fill_thumb_instr_buffer
  else
    some s2.fill_arm_instr_buffer

/-- ARM.4: Branch and Branch with Link (B, BL). -/
def branch_branch_with_link (L : Bool) (s0 : Arm7) (instr : Nat) : Option Arm7 :=
  let offset := instr &&& 0xFFFFFF
  let offset := if offset >>> 23 = 1 then 0xFF000000 ||| offset else offset
  let s1 := s0.instruction_prefetch32 .N
  let s2 := if L then s1.set_reg_i 14 (w32 (s1.pc + (M32 - 4))) else s1
  let s3 := { s2 with pc := w32 (s2.pc + w32 (offset <<< 2)) }
  some s3.fill_arm_instr_buffer

/-- Operand-2 computation of the data-processing handler: returns the operand,
whether the program counter was temporarily advanced, and the updated state;
`none` models the assertion on the register-specified shift encoding. -/
def dpOp2 (I : Bool) (cs : Bool) (opcode : Nat) (s0 : Arm7) (instr : Nat) :
    Option (Nat × Bool × Arm7) :=
  if I then
    let sh := (instr >>> 8) &&& 0xF
    let operand := instr &&& 0xFF
    if (opcode < 5 ∨ 7 < opcode) ∧ sh ≠ 0 then
      let (v, s1) := s0.shiftOp 3 operand (sh * 2) true cs
      some (v, false, s1)
    else
      some (rotr32 operand (sh * 2), false, s0)
  else
    if (instr >>> 4) &&& 1 ≠ 0 then
      if (instr >>> 7) &&& 1 ≠ 0 then none
      else
        let s1 := { s0 with pc := w32 (s0.pc + 4) }
        let sh := s1.get_reg_i ((instr >>> 8) &&& 0xF) &&& 0xFF
        let shift_type := (instr >>> 5) &&& 3
        let op2v := s1.get_reg_i (instr &&& 0xF)
        let (v, s2) := s1.shiftOp shift_type op2v sh false
          (cs && (decide (opcode < 5) || decide (7 < opcode)))
        some (v, true, s2)
    else
      let sh := (instr >>> 7) &&& 0x1F
      let shift_type := (instr >>> 5) &&& 3
      let op2v := s0.get_reg_i (instr &&& 0xF)
      let (v, s1) := s0.shiftOp shift_type op2v sh true
        (cs && (decide (opcode < 5) || decide (7 < opcode)))
      some (v, false, s1)

/-- The opcode dispatch of the data-processing handler: the computed result and
the state after any flag-producing ALU call. -/
def dpAlu (opcode : Nat) (op1 op2 : Nat) (cs : Bool) (s : Arm7) : Nat × Arm7 :=
  if opcode = 0 ∨ opcode = 8 then (op1 &&& op2, s)
  else if opcode = 1 ∨ opcode = 9 then (op1 ^^^ op2, s)
  else if opcode = 2 ∨ opcode = 0xA then s.aluSub op1 op2 cs
  else if opcode = 3 then s.aluSub op2 op1 cs
  else if opcode = 4 ∨ opcode = 0xB then s.aluAdd op1 op2 cs
  else if opcode = 5 then s.aluAdc op1 op2 cs
  else if opcode = 6 then s.aluSbc op1 op2 cs
  else if opcode = 7 then s.aluSbc op2 op1 cs
  else if opcode = 0xC then (op1 ||| op2, s)
  else if opcode = 0xD then (op2, s)
  else if opcode = 0xE then (op1 &&& (0xFFFFFFFF ^^^ w32 op2), s)
  else (0xFFFFFFFF ^^^ w32 op2, s)

/-- ARM.5: Data Processing. -/
def data_proc (I S : Bool) (s0 : Arm7) (instr : Nat) : Option Arm7 :=
  let opcode := (instr >>> 21) &&& 0xF
  let dest_reg := (instr >>> 12) &&& 0xF
  let change_status := S && !(dest_reg == 15)
  let special_change_status := S && (dest_reg == 15)
  match dpOp2 I change_status opcode s0 instr with
  | none => none
  | some (op2, temp_inc_pc, s1) =>
    let op1 := s1.get_reg_i ((instr >>> 16) &&& 0xF)
    let (result, s2) := dpAlu opcode op1 op2 change_status s1
    let s3? : Option Arm7 :=
      if change_status then some ((s2.set_z (result == 0)).set_n (result.testBit 31))
      else if special_change_status then some (s2.setCPSR s2.spsr)
      else if opcode &&& 0xC = 0x8 then none
      else some s2
    match s3? with
    | none => none
    | some s3 =>
      if opcode &&& 0xC ≠ 0x8 then
        if dest_reg = 15 then
          let s4 := s3.instruction_prefetch32 .N
          let s5 := { s4 with pc := result }
          some (if s5.get_t then s5.fill_thumb_instr_buffer else s5.fill_arm_instr_buffer)
        else
          let s4 := s3.set_reg_i dest_reg result
          let s5 := if temp_inc_pc then { s4 with pc := w32 (s4.pc + (M32 - 4)) } else s4
          some (s5.instruction_prefetch32 .S)
      else
        let s5 := if temp_inc_pc then { s3 with pc := w32 (s3.pc + (M32 - 4)) } else s3
        some (s5.instruction_prefetch32 .S)

/-- ARM.6: PSR Transfer (MRS, MSR). -/
def psr_transfer (I P L : Bool) (s0 : Arm7) (instr : Nat) : Option Arm7 :=
  if (instr >>> 26) &&& 3 ≠ 0 then none
  else if (instr >>> 23) &&& 3 ≠ 2 then none
  else if (instr >>> 20) &&& 1 ≠ 0 then none
  else
    let s1 := s0.instruction_prefetch32 .S
    if L then
      let mask :=
        (if (instr >>> 19) &&& 1 ≠ 0 then 0xFF000000 else 0) |||
        (if (instr >>> 18) &&& 1 ≠ 0 then 0x00FF0000 else 0) |||
        (if (instr >>> 17) &&& 1 ≠ 0 then 0x0000FF00 else 0) |||
        (if s1.mode ≠ Mode.USR ∧ (instr >>> 16) &&& 1 ≠ 0 then 0x000000FF else 0)
      if (instr >>> 12) &&& 0xF ≠ 0xF then none
      else
        let operand? : Option Nat :=
          if I then some (rotr32 (instr &&& 0xFF) (((instr >>> 8) &&& 0xF) * 2))
          else if (instr >>> 4) &&& 0xFF ≠ 0 then none
          else some (s1.get_reg_i (instr &&& 0xF))
        match operand? with
        | none => none
        | some operand =>
          let old := if P then s1.spsr else s1.cpsr
          let value := (old &&& (0xFFFFFFFF ^^^ mask)) ||| (operand &&& mask)
          some (if P then { s1 with spsr := value } else s1.setCPSR value)
    else
      if I then none
      else
        let v := if P then s1.spsr else s1.cpsr
        let s2 := s1.set_reg_i ((instr >>> 12) &&& 0xF) v
        if instr &&& 0xFFF ≠ 0 then none else some s2

/-- ARM.7: Multiply and Multiply-Accumulate (MUL, MLA). -/
def mul_mula (A S : Bool) (s0 : Arm7) (instr : Nat) : Option Arm7 :=
  if (instr >>> 22) &&& 0x3F ≠ 0 then none
  else
    let dest_reg := (instr >>> 16) &&& 0xF
    let op1_reg := (instr >>> 12) &&& 0xF
    let op1 := s0.get_reg_i op1_reg
    let op2 := s0.get_reg_i ((instr >>> 8) &&& 0xF)
    if (instr >>> 4) &&& 0xF ≠ 9 then none
    else
      let op3 := s0.get_reg_i (instr &&& 0xF)
      let s1 := s0.instruction_prefetch32 .S
      let s2 := s1.inc_mul_clocks op2 true
      let rs? : Option (Nat × Arm7) :=
        if A then some (w32 (op2 * op3 + op1), s2.internal)
        else if op1_reg = 0 then some (w32 (op2 * op3), s2)
        else none
      match rs? with
      | none => none
      | some (result, s3) =>
        let s4 := if S then (s3.set_n (result.testBit 31)).set_z (result == 0) else s3
        some (s4.set_reg_i dest_reg result)

/-- ARM.8: Multiply Long and Multiply-Accumulate Long (MULL, MLAL). -/
def mul_long (U A S : Bool) (s0 : Arm7) (instr : Nat) : Option Arm7 :=
  if (instr >>> 23) &&& 0x1F ≠ 1 then none
  else
    let hi := (instr >>> 16) &&& 0xF
    let lo := (instr >>> 12) &&& 0xF
    let op1 := s0.get_reg_i ((instr >>> 8) &&& 0xF)
    if (instr >>> 4) &&& 0xF ≠ 9 then none
    else
      let op2 := s0.get_reg_i (instr &&& 0xF)
      let s1 := (s0.instruction_prefetch32 .S).internal
      let s2 := s1.inc_mul_clocks op1 U
      let prod := if U then (sx64 op1 * sx64 op2) % M64 else (op1 * op2) % M64
      let (accv, s3) :=
        if A then ((s2.get_reg_i hi <<< 32) ||| s2.get_reg_i lo, s2.internal)
        else (0, s2)
      let result := (prod + accv) % M64
      let s4 := if S then (s3.set_n (result.testBit 63)).set_z (result == 0) else s3
      let s5 := s4.set_reg_i lo (result % M32)
      some (s5.set_reg_i hi (result >>> 32))

/-- The load value of a single data transfer: byte loads zero-extend, word
loads read the aligned-down word rotated by the misalignment. -/
def sdtLoadValue (B : Bool) (mem : Nat → Nat) (addr : Nat) : Nat :=
  if B then read8m mem addr
  else rotr32 (read32m mem (addr &&& 0xFFFFFFFC)) ((addr &&& 3) * 8)

/-- The `exec` closure of the single data transfer; returns the updated state
and the (possibly suppressed) write-back flag. -/
def sdtExec (B L : Bool) (base_reg src_dest_reg : Nat) (wb : Bool) (addr : Nat)
    (s : Arm7) : Arm7 × Bool :=
  if L then
    let acc := if src_dest_reg = 15 then Acc.N else Acc.S
    let value := sdtLoadValue B s.mem addr
    let s :=
      if B then { s with trace := s.trace ++ [Ev.rd 8 acc (w32 addr)] }
      else { s with trace := s.trace ++ [Ev.rd 32 acc (w32 (addr &&& 0xFFFFFFFC))] }
    let s := s.internal
    let s := s.set_reg_i src_dest_reg value
    let wb := if src_dest_reg = base_reg then false else wb
    let s := if src_dest_reg = 15 then s.fill_arm_instr_buffer else s
    (s, wb)
  else
    let value := s.get_reg_i src_dest_reg
    let value := if src_dest_reg = 15 then w32 (value + 4) else value
    if B then (s.writeU8 .N addr value, wb)
    else (s.writeU32 .N (addr &&& 0xFFFFFFFC) value, wb)

/-- The offset of a single data transfer, as a function of the pre-transfer
registers (the shifter leaves the state unchanged since flags are not set). -/
def sdtOffsetVal (I : Bool) (s : Arm7) (instr : Nat) : Nat :=
  if I then
    (s.shiftOp ((instr >>> 5) &&& 3) (s.get_reg_i (instr &&& 0xF)) ((instr >>> 7) &&& 0x1F)
      true false).1
  else instr &&& 0xFFF

/-- The transfer address of a single data transfer. -/
def sdtAddress (I P U : Bool) (s : Arm7) (instr : Nat) : Nat :=
  let base := s.get_reg_i ((instr >>> 16) &&& 0xF)
  let offset := sdtOffsetVal I s instr
  if P then (if U then w32 (base + offset) else w32 (base + (M32 - w32 offset)))
  else base

/-- ARM.9: Single Data Transfer (LDR, STR). -/
def single_data_transfer (I P U B W L : Bool) (s0 : Arm7) (instr : Nat) : Option Arm7 :=
  if (instr >>> 26) &&& 3 ≠ 1 then none
  else
    let write_back := W || !P
    let base_reg := (instr >>> 16) &&& 0xF
    let base := s0.get_reg_i base_reg
    let src_dest_reg := (instr >>> 12) &&& 0xF
    let s1 := s0.instruction_prefetch32 .N
    let offres : Option (Nat × Arm7) :=
      if I then
        if (instr >>> 4) &&& 1 ≠ 0 then none
        else if instr &&& 0xF = 15 then none
        else
          let sh := (instr >>> 7) &&& 0x1F
          let shift_type := (instr >>> 5) &&& 3
          let operand := s1.get_reg_i (instr &&& 0xF)
          some (s1.shiftOp shift_type operand sh true false)
      else some (instr &&& 0xFFF, s1)
    match offres with
    | none => none
    | some (offset, s2) =>
      let offset_applied :=
        if U then w32 (base + offset) else w32 (base + (M32 - w32 offset))
      if P then
        let (s3, wb) := sdtExec B L base_reg src_dest_reg write_back offset_applied s2
        some (if wb then s3.set_reg_i base_reg offset_applied else s3)
      else
        if (instr >>> 21) &&& 1 ≠ 0 then none
        else
          let (s3, wb) := sdtExec B L base_reg src_dest_reg write_back base s2
          some (if wb then s3.set_reg_i base_reg offset_applied else s3)

/-- The load value of a halfword/signed transfer, per the 2-bit opcode built
from the S and H bits; `none` for the unreachable opcode 0. -/
def hsdtLoadValue (opcode : Nat) (mem : Nat → Nat) (addr : Nat) : Option Nat :=
  if opcode = 1 then some (rotr32 (read16m mem (addr &&& 0xFFFFFFFE)) ((addr &&& 1) * 8))
  else if opcode = 2 then some (sx8 (read8m mem addr))
  else if opcode = 3 then
    if addr &&& 1 = 1 then some (sx8 (read8m mem addr))
    else some (sx16 (read16m mem addr))
  else none

/-- The `exec` closure of the halfword/signed data transfer. -/
def hsdtExec (opcode : Nat) (L : Bool) (base_reg src_dest_reg : Nat) (wb : Bool)
    (addr : Nat) (s : Arm7) : Option (Arm7 × Bool) :=
  if L then
    let wb := if src_dest_reg = base_reg then false else wb
    let acc := if src_dest_reg = 15 then Acc.N else Acc.S
    match hsdtLoadValue opcode s.mem addr with
    | none => none
    | some value =>
      let ev :=
        if opcode = 1 then Ev.rd 16 acc (w32 (addr &&& 0xFFFFFFFE))
        else if opcode = 2 ∨ addr &&& 1 = 1 then Ev.rd 8 acc (w32 addr)
        else Ev.rd 16 acc (w32 addr)
      let s := { s with trace := s.trace ++ [ev] }
      let s := s.internal
      let s := s.set_reg_i src_dest_reg value
      let s := if src_dest_reg = 15 then s.fill_arm_instr_buffer else s
      some (s, wb)
  else
    if opcode ≠ 1 then none
    else
      let addr := addr &&& 0xFFFFFFFE
      let value := s.get_reg_i src_dest_reg
      some (s.writeU16 .N addr value, wb)

/-- The transfer address of a halfword/signed data transfer. -/
def hsdtAddress (P U I : Bool) (s : Arm7) (instr : Nat) : Nat :=
  let base := s.get_reg_i ((instr >>> 16) &&& 0xF)
  let offset :=
    if I then (((instr >>> 8) &&& 0xF) <<< 4) ||| (instr &&& 0xF)
    else s.get_reg_i (instr &&& 0xF)
  if P then (if U then w32 (base + offset) else w32 (base + (M32 - w32 offset)))
  else base

/-- ARM.10: Halfword and Signed Data Transfer (STRH, LDRH, LDRSB, LDRSH). -/
def halfword_and_signed_data_transfer (P U I W L S H : Bool) (s0 : Arm7) (instr : Nat) :
    Option Arm7 :=
  if (instr >>> 25) &&& 7 ≠ 0 then none
  else
    let write_back := W || !P
    let base_reg := (instr >>> 16) &&& 0xF
    let base := s0.get_reg_i base_reg
    let src_dest_reg := (instr >>> 12) &&& 0xF
    let offset_hi := (instr >>> 8) &&& 0xF
    if (instr >>> 7) &&& 1 ≠ 1 then none
    else
      let opcode := (if S then 2 else 0) + (if H then 1 else 0)
      if (instr >>> 4) &&& 1 ≠ 1 then none
      else
        let offset_low := instr &&& 0xF
        let s1 := s0.instruction_prefetch32 .N
        let offres : Option Nat :=
          if I then some ((offset_hi <<< 4) ||| offset_low)
          else if offset_hi ≠ 0 then none
          else some (s1.get_reg_i offset_low)
        match offres with
        | none => none
        | some offset =>
          let offset_applied :=
            if U then w32 (base + offset) else w32 (base + (M32 - w32 offset))
          if P then
            (hsdtExec opcode L base_reg src_dest_reg write_back offset_applied s1).bind
              (fun p => some (if p.2 then p.1.set_reg_i base_reg offset_applied else p.1))
          else
            (hsdtExec opcode L base_reg src_dest_reg write_back base s1).bind
              (fun p =>
                if (instr >>> 24) &&& 1 ≠ 0 then none
                else some (if p.2 then p.1.set_reg_i base_reg offset_applied else p.1))

/-- The `exec` closure of the block data transfer. -/
def bdtExec (L psr_force_usr write_back : Bool) (base_reg final_addr : Nat)
    (addr reg : Nat) (last : Bool) (s : Arm7) : Arm7 :=
  if L then
    let (value, s) := s.readU32 .S addr
    let s := s.set_reg_i reg value
    let s := if write_back then s.set_reg_i base_reg final_addr else s
    let s := if last then s.internal else s
    if reg = 15 then
      let s := if psr_force_usr then s.restore_cpsr else s
      let s := { s with nextAccess := Acc.N }
      s.fill_arm_instr_buffer
    else s
  else
    let value := s.get_reg_i reg
    let acc := if last then Acc.N else Acc.S
    let s := s.writeU32 acc addr (if reg = 15 then w32 (value + 4) else value)
    if write_back then s.set_reg_i base_reg final_addr else s

/-- The `calc_addr` closure of the block data transfer: the transfer address
and the advanced running address. -/
def bdtCalcAddr (pre : Bool) (inc addr : Nat) : Nat × Nat :=
  if pre then (w32 (addr + inc), w32 (addr + inc))
  else (addr, w32 (addr + inc))

/-- The register-list loop of the block data transfer.  The source's `while`
loop runs until the remaining list equals 1; a fuel of 17 suffices for every
16-bit list (the loop is only entered on a non-empty list, so fuel never runs
out on reachable inputs). -/
def bdtLoop (fuel : Nat) (L psr wb : Bool) (base_reg final_addr : Nat) (pre : Bool)
    (inc : Nat) (addr r_list reg : Nat) (s : Arm7) : Arm7 :=
  match fuel with
  | 0 => s
  | fuel + 1 =>
    if r_list = 1 then
      let (a, _) := bdtCalcAddr pre inc addr
      bdtExec L psr wb base_reg final_addr a reg true s
    else if r_list &&& 1 ≠ 0 then
      let (a, addr') := bdtCalcAddr pre inc addr
      bdtLoop fuel L psr wb base_reg final_addr pre inc addr' (r_list >>> 1) (reg + 1)
        (bdtExec L psr wb base_reg final_addr a reg false s)
    else
      bdtLoop fuel L psr wb base_reg final_addr pre inc addr (r_list >>> 1) (reg + 1) s

/-- ARM.11: Block Data Transfer (LDM, STM). -/
def block_data_transfer (P U S W L : Bool) (s0 : Arm7) (instr : Nat) : Option Arm7 :=
  if (instr >>> 25) &&& 7 ≠ 4 then none
  else
    let add_offset := U
    let pre_offset := xor P (!add_offset)
    let psr_force_usr := S
    let base_reg := (instr >>> 16) &&& 0xF
    if base_reg = 15 then none
    else
      let base0 := s0.get_reg_i base_reg
      let base_offset := base0 &&& 3
      let base := base0 - base_offset
      let r_list := instr &&& 0xFFFF
      let write_back := W && !(L && ((r_list >>> base_reg) &&& 1 == 1))
      let actual_mode := s0.mode
      let s1 :=
        if psr_force_usr && !(L && ((r_list >>> 15) &&& 1 == 1)) then s0.set_mode .USR
        else s0
      let s2 := s1.instruction_prefetch32 .N
      let num_regs := countOnes r_list
      let start_addr := if add_offset then base else w32 (base + (M32 - w32 (num_regs * 4)))
      let final_addr :=
        w32 ((if add_offset then w32 (start_addr + 4 * num_regs) else start_addr) + base_offset)
      let (final_addr, inc_amount) :=
        if num_regs = 0 then (w32 (final_addr + 0x40), 0x40) else (final_addr, 4)
      let s3 :=
        if num_regs = 0 then
          bdtExec L psr_force_usr write_back base_reg final_addr start_addr 15 true s2
        else
          bdtLoop 17 L psr_force_usr write_back base_reg final_addr pre_offset inc_amount
            start_addr r_list 0 s2
      some (s3.set_mode actual_mode)

/-- ARM.12: Single Data Swap (SWP). -/
def single_data_swap (B : Bool) (s0 : Arm7) (instr : Nat) : Option Arm7 :=
  if (instr >>> 23) &&& 0x1F ≠ 2 then none
  else if (instr >>> 20) &&& 3 ≠ 0 then none
  else
    let base := s0.get_reg_i ((instr >>> 16) &&& 0xF)
    let dest_reg := (instr >>> 12) &&& 0xF
    if (instr >>> 4) &&& 0xFF ≠ 9 then none
    else
      let src_reg := instr &&& 0xF
      let src := s0.get_reg_i src_reg
      let s1 := s0.instruction_prefetch32 .N
      let (value, s2) :=
        if B then
          let (v, s) := s1.readU8 .N base
          (v, s.writeU8 .S base src)
        else
          let (v, s) := s1.readU32 .N (base &&& 0xFFFFFFFC)
          (rotr32 v ((base &&& 3) * 8), s.writeU32 .S (base &&& 0xFFFFFFFC) src)
      let s3 := s2.set_reg_i dest_reg value
      some s3.internal

/-- ARM.13: Software Interrupt (SWI). -/
def arm_software_interrupt (s0 : Arm7) (instr : Nat) : Option Arm7 :=
  if (instr >>> 24) &&& 0xF ≠ 0xF then none
  else
    let s1 := s0.instruction_prefetch32 .N
    let s2 := s1.change_mode .SVC
    let s3 := s2.set_reg_i 14 (w32 (s2.pc + (M32 - 4)))
    let s4 := s3.set_i true
    let s5 := { s4 with pc := 8 }
    some s5.fill_arm_instr_buffer

end Arm7

/-- The instruction classes the decode table can select, together with the
boolean sub-variant bits the table resolves at build time
(`compose_instr_handler!`). -/
inductive InstrClass where
  | branch_and_exchange
  | mul_mula (A S : Bool)
  | mul_long (U A S : Bool)
  | single_data_swap (B : Bool)
  | halfword_and_signed (P U I W L S H : Bool)
  | psr_transfer (I P L : Bool)
  | data_proc (I S : Bool)
  | single_data_transfer (I P U B W L : Bool)
  | block_data_transfer (P U S W L : Bool)
  | branch_branch_with_link (L : Bool)
  | software_interrupt
  | coprocessor
  | undefined
deriving DecidableEq

/-- The skeleton instruction reconstructed from a 12-bit dispatch key
(bits 4-11 of the key are bits 20-27 of the instruction, bits 0-3 of the key
are bits 4-7 of the instruction). -/
def armSkeleton (opcode : Nat) : Nat :=
  ((opcode &&& 0xFF0) <<< 16) ||| ((opcode &&& 0xF) <<< 4)

/-- `gen_lut`: the decode-table builder's rule chain — for a dispatch key, the
first matching mask/pattern rule selects the handler, with the sub-variant
booleans taken from the skeleton's bits. -/
def gen_lut (opcode : Nat) : InstrClass :=
  let sk := armSkeleton opcode
  if sk &&& 0xFF000F0
      = 0x1200010 then
    .branch_and_exchange
  else if sk &&& 0xFC000F0
      = 0x0000090 then
    .mul_mula (sk.testBit 21) (sk.testBit 20)
  else if sk &&& 0xF8000F0
      = 0x0800090 then
    .mul_long (sk.testBit 22) (sk.testBit 21) (sk.testBit 20)
  else if sk &&& 0xF800FF0
      = 0x1000090 then
    .single_data_swap (sk.testBit 22)
  else if sk &&& 0xE000090
      = 0x0000090 then
    .halfword_and_signed (sk.testBit 24) (sk.testBit 23) (sk.testBit 22) (sk.testBit 21)
      (sk.testBit 20) (sk.testBit 6) (sk.testBit 5)
  else if sk &&& 0xD900000
      = 0x1000000 then
    .psr_transfer (sk.testBit 25) (sk.testBit 22) (sk.testBit 21)
  else if sk &&& 0xC000000
      = 0x0000000 then
    .data_proc (sk.testBit 25) (sk.testBit 20)
  else if sk &&& 0xC000000
      = 0x4000000 then
    .single_data_transfer (sk.testBit 25) (sk.testBit 24) (sk.testBit 23) (sk.testBit 22)
      (sk.testBit 21) (sk.testBit 20)
  else if sk &&& 0xE000000
      = 0x8000000 then
    .block_data_transfer (sk.testBit 24) (sk.testBit 23) (sk.testBit 22) (sk.testBit 21)
      (sk.testBit 20)
  else if sk &&& 0xE000000
      = 0xA000000 then
    .branch_branch_with_link (sk.testBit 24)
  else if sk &&& 0xF000000
      = 0xF000000 then
    .software_interrupt
  else if sk &&& 0xE000000
      = 0xC000000 then
    .coprocessor
  else if sk &&& 0xF000000
      = 0xE000000 then
    .coprocessor
  else
    .undefined

/-- The mask/pattern rule that selects each instruction class; for
`undefined`, the pattern of the builder's final consistency assertion
(bits 25-27 = 011, bit 4 = 1).  The two coprocessor patterns are merged into
their common tested bits 25-27. -/
def classRule : InstrClass → Nat × Nat
  | .branch_and_exchange =>
    (0xFF000F0, 0x1200010)
  | .mul_mula _ _ =>
    (0xFC000F0, 0x0000090)
  | .mul_long _ _ _ =>
    (0xF8000F0, 0x0800090)
  | .single_data_swap _ =>
    (0xF800FF0, 0x1000090)
  | .halfword_and_signed _ _ _ _ _ _ _ =>
    (0xE000090, 0x0000090)
  | .psr_transfer _ _ _ =>
    (0xD900000, 0x1000000)
  | .data_proc _ _ =>
    (0xC000000, 0x0000000)
  | .single_data_transfer _ _ _ _ _ _ =>
    (0xC000000, 0x4000000)
  | .block_data_transfer _ _ _ _ _ =>
    (0xE000000, 0x8000000)
  | .branch_branch_with_link _ =>
    (0xE000000, 0xA000000)
  | .software_interrupt =>
    (0xF000000, 0xF000000)
  | .coprocessor =>
    (0xC000000, 0xC000000)
  | .undefined =>
    (0xE000010, 0x6000010)

/-- The sub-variant booleans stored in the table match the skeleton's bits. -/
def classBitsOk (c : InstrClass) (sk : Nat) : Bool :=
  match c with
  | .mul_mula A S => A == sk.testBit 21 && S == sk.testBit 20
  | .mul_long U A S => U == sk.testBit 22 && A == sk.testBit 21 && S == sk.testBit 20
  | .single_data_swap B => B == sk.testBit 22
  | .halfword_and_signed P U I W L S H =>
    P == sk.testBit 24 && U == sk.testBit 23 && I == sk.testBit 22 && W == sk.testBit 21 &&
    L == sk.testBit 20 && S == sk.testBit 6 && H == sk.testBit 5
  | .psr_transfer I P L => I == sk.testBit 25 && P == sk.testBit 22 && L == sk.testBit 21
  | .data_proc I S => I == sk.testBit 25 && S == sk.testBit 20
  | .single_data_transfer I P U B W L =>
    I == sk.testBit 25 && P == sk.testBit 24 && U == sk.testBit 23 && B == sk.testBit 22 &&
    W == sk.testBit 21 && L == sk.testBit 20
  | .block_data_transfer P U S W L =>
    P == sk.testBit 24 && U == sk.testBit 23 && S == sk.testBit 22 && W == sk.testBit 21 &&
    L == sk.testBit 20
  | .branch_branch_with_link L => L == sk.testBit 24
  | _ => true

/-- Dispatch an instruction class to its handler; the coprocessor and
undefined handlers abort (`unimplemented!`). -/
def Arm7.execClass : InstrClass → Arm7 → Nat → Option Arm7
  | .branch_and_exchange => Arm7.branch_and_exchange
  | .mul_mula A S => Arm7.mul_mula A S
  | .mul_long U A S => Arm7.mul_long U A S
  | .single_data_swap B => Arm7.single_data_swap B
  | .halfword_and_signed P U I W L S H => Arm7.halfword_and_signed_data_transfer P U I W L S H
  | .psr_transfer I P L => Arm7.psr_transfer I P L
  | .data_proc I S => Arm7.data_proc I S
  | .single_data_transfer I P U B W L => Arm7.single_data_transfer I P U B W L
  | .block_data_transfer P U S W L => Arm7.block_data_transfer P U S W L
  | .branch_branch_with_link L => Arm7.branch_branch_with_link L
  | .software_interrupt => Arm7.arm_software_interrupt
  | .coprocessor => fun _ _ => none
  | .undefined => fun _ _ => none

/-- The 12-bit dispatch key of an instruction word. -/
def armKey (instr : Nat) : Nat :=
  ((instr >>> 16) &&& 0xFF0) ||| ((instr >>> 4) &&& 0xF)

/-- `emulate_arm_instr`: consume buffer slot 0, shift the buffer, advance the
program counter, and either dispatch through the decode table or charge a
single skipped-condition fetch. -/
def Arm7.emulate_arm_instr (s0 : Arm7) : Option Arm7 :=
  let instr := s0.ibuf0
  let s1 := { s0 with ibuf0 := s0.ibuf1, pc := w32 (s0.pc + 4) }
  if s1.should_exec ((instr >>> 28) &&& 0xF) then
    Arm7.execClass (gen_lut (armKey instr)) s1 instr
  else
    some (s1.instruction_prefetch32 .S)

/-- Modelled from the spec: `reset()` establishes the initial register state at
an entry point over a given memory (the first buffer fill is performed
separately by `fill_arm_instr_buffer`). -/
def Arm7.reset (entry : Nat) (mem : Nat → Nat) : Arm7 :=
  { gpr := fun _ => 0, pc := entry, cpsr := 0xD3, spsr := 0, mode := .SVC,
    ibuf0 := 0, ibuf1 := 0, mem := mem, trace := [], nextAccess := .S }

/-- Holds of an optional machine state when the property holds of the value;
an aborted (`none`) execution has no observable final state. -/
def onSome (o : Option Arm7) (Q : Arm7 → Prop) : Prop :=
  match o with
  | none => True
  | some s => Q s

/-! ## The timer subsystem (`src/core/src/hw/timers.rs`) -/

/-- Modelled from the spec: the scheduler — a monotone cycle counter and a set
of pending timer-overflow events, at most one per timer index; scheduling
replaces, removal is a no-op when absent.  Events are keyed by the timer index
and carry their absolute trigger cycle. -/
structure Scheduler where
  cycle : Nat
  pending : List (Nat × Nat)

/-- Modelled from the spec: insert or replace the pending event of a kind. -/
def Scheduler.schedule (sch : Scheduler) (i delay : Nat) : Scheduler :=
  { sch with pending := (i, sch.cycle + delay) :: sch.pending.filter (fun e => e.1 ≠ i) }

/-- Modelled from the spec: cancel the pending event of a kind if present. -/
def Scheduler.remove (sch : Scheduler) (i : Nat) : Scheduler :=
  { sch with pending := sch.pending.filter (fun e => e.1 ≠ i) }

/-- The timer control word `TMCNT`. -/
structure TMCNT where
  prescaler : Nat
  count_up : Bool
  irq : Bool
  start : Bool
deriving DecidableEq

/-- `TMCNT::write`: byte 0 decodes the control bits; byte 1 is ignored. -/
def TMCNT.write (cnt : TMCNT) (byte value : Nat) : TMCNT :=
  if byte = 0 then
    let v := value % 256
    { start := v.testBit 7, irq := v.testBit 6, count_up := v.testBit 2,
      prescaler := v &&& 3 }
  else cnt

/-- `TMCNT::read` byte 0 (byte 1 reads 0). -/
def TMCNT.read (cnt : TMCNT) (byte : Nat) : Nat :=
  if byte = 0 then
    (if cnt.start then 128 else 0) + (if cnt.irq then 64 else 0) +
    (if cnt.count_up then 4 else 0) + cnt.prescaler
  else 0

/-- `Timers::PRESCALERS` indexed by the 2-bit prescaler select. -/
def prescalerOf (p : Nat) : Nat :=
  if p = 0 then 1 else if p = 1 then 64 else if p = 2 then 256 else 1024

/-- One hardware timer (`Timer`), the per-processor flag dropped: the reload
value, control word, its index, the stored counter (live for count-up timers),
and the derived regular-timing state. -/
structure Timer where
  reload : Nat
  cnt : TMCNT
  index : Nat
  counter : Nat
  start_cycle : Nat
  time_till_first_clock : Nat
  timer_len : Nat
deriving DecidableEq

namespace Timer

/-- `Timer::new`. -/
def new (index : Nat) : Timer :=
  { reload := 0, cnt := { prescaler := 0, count_up := false, irq := false, start := false },
    index := index, counter := 0, start_cycle := 0, time_till_first_clock := 0,
    timer_len := 0 }

/-- `Timer::clock` — the count-up cascade tick; returns the overflow flag.
The source asserts `is_count_up`, which holds at the only call site; the
16-bit increment overflows exactly at 0xFFFF. -/
def clock (t : Timer) : Timer × Bool :=
  if t.cnt.start then
    if t.counter = 0xFFFF then ({ t with counter := t.reload }, true)
    else ({ t with counter := t.counter + 1 }, false)
  else (t, false)

/-- `Timer::calc_counter` — the live counter derived from the elapsed cycles.
The source asserts `counter_change < 0x10000` and performs wrapping 16-bit
arithmetic; the model is total, reducing mod 2^16 (a superset of the
panicking behaviour). -/
def calc_counter (t : Timer) (global_cycle : Nat) : Nat :=
  let cycles_passed := global_cycle - t.start_cycle
  if t.time_till_first_clock ≤ cycles_passed then
    let cp := cycles_passed - t.time_till_first_clock
    let change := cp / prescalerOf t.cnt.prescaler
    w16 (t.counter + 1 + change % 65536)
  else t.counter

/-- `Timer::create_event` — derive the regular timing state and schedule the
overflow event. -/
def create_event (t : Timer) (sch : Scheduler) (delay : Nat) : Timer × Scheduler :=
  let start_cycle := sch.cycle + delay
  let p := prescalerOf t.cnt.prescaler
  let ttfc := p - (start_cycle + 1) % p
  let tlen := p * (0x10000 - t.reload - 1)
  let t := { t with start_cycle := start_cycle, time_till_first_clock := ttfc,
                    timer_len := tlen }
  (t, sch.schedule t.index (delay + ttfc + tlen))

/-- `Timer::write` — reload low/high bytes, the control byte (byte 2, which
removes the pending event and restarts or stops the timer) and the inert
byte 3.  Bytes other than 0-3 are unreachable from the I/O dispatch. -/
def write (t : Timer) (sch : Scheduler) (byte value : Nat) : Timer × Scheduler :=
  if byte = 0 then ({ t with reload := (t.reload &&& 0xFF00) ||| (value % 256) }, sch)
  else if byte = 1 then
    ({ t with reload := (t.reload &&& 0xFF) ||| ((value % 256) <<< 8) }, sch)
  else if byte = 2 then
    let global_cycle := sch.cycle
    let sch := sch.remove t.index
    let prev_start := t.cnt.start
    let t := if ¬t.cnt.count_up ∧ t.cnt.start then
               { t with counter := t.calc_counter global_cycle }
             else t
    let t := { t with cnt := t.cnt.write 0 value }
    if ¬t.cnt.count_up then
      if ¬prev_start ∧ t.cnt.start then
        let t := { t with counter := t.reload }
        t.create_event sch 1
      else if t.cnt.start then t.create_event sch 0
      else (t, sch)
    else
      if ¬prev_start ∧ t.cnt.start then ({ t with counter := t.reload }, sch)
      else (t, sch)
  else (t, sch)

end Timer

/-- The four timers of one processor, its scheduler, and the raised interrupt
requests as a bitmask. -/
structure TimersHW where
  timers : Fin 4 → Timer
  sched : Scheduler
  intr : Nat

/-- `HW::on_timer_overflow`, opening phase: raise the interrupt request bit of
the overflowing timer when its control word enables it. -/
def otIrq (hw : TimersHW) (num : Fin 4) : TimersHW :=
  if (hw.timers num).cnt.irq then { hw with intr := hw.intr ||| (1 <<< num.val) }
  else hw

/-- `HW::on_timer_overflow`, closing phase: a regular (non-count-up) timer
reloads its counter and schedules its next overflow event; a count-up timer is
left alone. -/
def otFinish (hw : TimersHW) (num : Fin 4) : TimersHW :=
  if ¬(hw.timers num).cnt.count_up then
    let t := hw.timers num
    let t2 := { t with counter := t.reload }
    let r := t2.create_event hw.sched 0
    { hw with timers := Function.update hw.timers num r.1, sched := r.2 }
  else hw

/-- `HW::on_timer_overflow` — raise the interrupt if enabled, cascade into the
next-indexed count-up timer (recursively when that one overflows as well), and
for regular timers reload and schedule the next overflow.  The returned list
logs the indices that received a cascade clock call. -/
def onTimerOverflow (hw : TimersHW) (num : Fin 4) : TimersHW × List Nat :=
  let hw1 := otIrq hw num
  let step2 : TimersHW × List Nat :=
    if h : num.val + 1 < 4 then
      let nxt : Fin 4 := ⟨num.val + 1, h⟩
      if (hw1.timers nxt).cnt.count_up then
        let c := (hw1.timers nxt).clock
        let hw2 := { hw1 with timers := Function.update hw1.timers nxt c.1 }
        if c.2 then
          let r := onTimerOverflow hw2 nxt
          (r.1, nxt.val :: r.2)
        else (hw2, [nxt.val])
      else (hw1, [])
    else (hw1, [])
  (otFinish step2.1 num, step2.2)
termination_by 3 - num.val
decreasing_by simp_wf; omega

/-- The I/O-dispatch write path: route a byte write to timer `i`. -/
def applyTimerWrite (hw : TimersHW) (i : Fin 4) (byte value : Nat) : TimersHW :=
  let (t, sch) := (hw.timers i).write hw.sched byte value
  { hw with timers := Function.update hw.timers i t, sched := sch }

/-- Fire the pending overflow event of timer `i`: the scheduler removes the
event before the handler runs. -/
def fireOverflow (hw : TimersHW) (i : Fin 4) : TimersHW :=
  let hw := { hw with sched := hw.sched.remove i.val }
  (onTimerOverflow hw i).1

/-- The initial timer subsystem state (`Timers::new` with a fresh scheduler). -/
def initTimersHW : TimersHW :=
  { timers := fun i => Timer.new i.val, sched := { cycle := 0, pending := [] }, intr := 0 }

/-- The transitions driving the timer subsystem: register writes arriving from
the I/O dispatch, firing of a due pending overflow event, and the advancing
cycle counter. -/
inductive TStep : TimersHW → TimersHW → Prop where
  | write (hw : TimersHW) (i : Fin 4) (byte value : Nat) (hb : byte < 4) :
      TStep hw (applyTimerWrite hw i byte value)
  | fire (hw : TimersHW) (i : Fin 4) (c : Nat)
      (hmem : (i.val, c) ∈ hw.sched.pending) (hc : c ≤ hw.sched.cycle) :
      TStep hw (fireOverflow hw i)
  | tick (hw : TimersHW) :
      TStep hw { hw with sched := { hw.sched with cycle := hw.sched.cycle + 1 } }

/-- States reachable from the initial timer subsystem state. -/
inductive TReach : TimersHW → Prop where
  | init : TReach initTimersHW
  | step {hw hw' : TimersHW} : TReach hw → TStep hw hw' → TReach hw'

/-! ## The ARM9 memory dispatch (`src/core/src/hw/mem/arm9.rs`) -/

/-- The ARM9 memory regions. -/
inductive ARM9MemoryRegion where
  | ITCM
  | DTCM
  | MainMem
  | SharedWRAM
  | Mmio
  | Palette
  | VRAM
  | OAM
  | GBAROM
  | GBARAM
  | BIOS
  | Unknown
deriving DecidableEq

/-- Modelled from the spec: the CP15 TCM configuration, abstracted to its two
range predicates consumed by the region decode. -/
structure CP15 where
  addr_in_itcm : Nat → Bool
  addr_in_dtcm : Nat → Bool

/-- `ARM9MemoryRegion::from_addr`: TCM ranges first, then the high-byte match. -/
def ARM9MemoryRegion.from_addr (addr : Nat) (cp15 : CP15) : ARM9MemoryRegion :=
  if cp15.addr_in_itcm addr then .ITCM
  else if cp15.addr_in_dtcm addr then .DTCM
  else
    let hi := addr >>> 24
    if hi = 2 then .MainMem
    else if hi = 3 then .SharedWRAM
    else if hi = 4 then .Mmio
    else if hi = 5 then .Palette
    else if hi = 6 then .VRAM
    else if hi = 7 then .OAM
    else if hi = 8 ∨ hi = 9 then .GBAROM
    else if hi = 0xA then .GBARAM
    else if hi = 0xFF ∧ addr >>> 16 = 0xFFFF then .BIOS
    else .Unknown

/-- The ARM9-visible memory state: the CP15 ranges, the directly backed
memories with their address masks, and the shared-WRAM mapping control. -/
structure Arm9Mem where
  cp15 : CP15
  itcm : Nat → Nat
  dtcm : Nat → Nat
  main_mem : Nat → Nat
  shared_wram : Nat → Nat
  bios9 : Nat → Nat
  itcm_mask : Nat
  dtcm_mask : Nat
  main_mem_mask : Nat
  wramcnt_arm9_offset : Nat
  wramcnt_arm9_mask : Nat

/-- `HW::read_mem::<T>` at a width of 8, 16 or 32 bits. -/
def read_mem (mem : Nat → Nat) (width addr : Nat) : Nat :=
  if width = 8 then read8m mem addr
  else if width = 16 then read16m mem addr
  else read32m mem addr

/-- The outcome of an ARM9 read: a produced value, delegation to an
out-of-scope collaborator (GPU, I/O, cartridge), or a fatal `todo!`. -/
inductive ReadOutcome where
  | value (v : Nat)
  | delegated (r : ARM9MemoryRegion)
  | fatal
deriving DecidableEq

/-- `HW::arm9_read::<T>`: region dispatch.  Unmapped shared WRAM and unknown
regions log and return zero; the collaborator-backed regions are delegated;
`GBARAM` is `todo!()`.  None of the modelled arms mutates the machine state. -/
def arm9_read (m : Arm9Mem) (width addr : Nat) : ReadOutcome :=
  match ARM9MemoryRegion.from_addr addr m.cp15 with
  | .ITCM => .value (read_mem m.itcm width (addr &&& m.itcm_mask))
  | .DTCM => .value (read_mem m.dtcm width (addr &&& m.dtcm_mask))
  | .MainMem => .value (read_mem m.main_mem width (addr &&& m.main_mem_mask))
  | .SharedWRAM =>
    if m.wramcnt_arm9_mask = 0 then .value 0
    else .value (read_mem m.shared_wram width
      (m.wramcnt_arm9_offset + (addr &&& m.wramcnt_arm9_mask)))
  | .Mmio => .delegated .Mmio
  | .Palette => .delegated .Palette
  | .VRAM => .delegated .VRAM
  | .OAM => .delegated .OAM
  | .GBAROM => .delegated .GBAROM
  | .GBARAM => .fatal
  | .BIOS => .value (read_mem m.bios9 width (addr &&& 0xFFFF))
  | .Unknown => .value 0

/-! ## C1: decode-table completeness and pattern consistency -/

/-- One dispatch key is consistent: the skeleton matches the selecting rule's
mask/pattern and the stored sub-variant booleans equal the skeleton's bits. -/
def c1ok (k : Nat) : Bool :=
  (armSkeleton k &&& (classRule (gen_lut k)).1 == (classRule (gen_lut k)).2) &&
  classBitsOk (gen_lut k) (armSkeleton k)

/-- Balanced exhaustive check of `c1ok` on `[lo, lo+len)`, with recursion depth
`d` so the kernel can evaluate it without deep recursion. -/
def c1AllD : Nat → Nat → Nat → Bool
  | 0, lo, len => len == 0 || (len == 1 && c1ok lo)
  | d + 1, lo, len =>
    if len ≤ 1 then len == 0 || (len == 1 && c1ok lo)
    else c1AllD d lo (len / 2) && c1AllD d (lo + len / 2) (len - len / 2)

theorem c1AllD_spec :
    ∀ d lo len, c1AllD d lo len = true → ∀ j, j < len → c1ok (lo + j) = true := by
  intro d
  induction d with
  | zero =>
    intro lo len h j hj
    simp only [c1AllD] at h
    rcases Bool.or_eq_true _ _ |>.mp h with h0 | h1
    · simp at h0; omega
    · rw [Bool.and_eq_true] at h1
      have hl : len = 1 := by simpa using h1.1
      have hz : j = 0 := by omega
      subst hz
      simpa using h1.2
  | succ d ih =>
    intro lo len h j hj
    simp only [c1AllD] at h
    split at h
    · rcases Bool.or_eq_true _ _ |>.mp h with h0 | h1
      · simp at h0; omega
      · rw [Bool.and_eq_true] at h1
        have hl : len = 1 := by simpa using h1.1
        have hz : j = 0 := by omega
        subst hz
        simpa using h1.2
    · rw [Bool.and_eq_true] at h
      by_cases hj2 : j < len / 2
      · exact ih lo (len / 2) h.1 j hj2
      · have hres := ih (lo + len / 2) (len - len / 2) h.2 (j - len / 2) (by omega)
        have heq : lo + len / 2 + (j - len / 2) = lo + j := by omega
        rwa [heq] at hres

theorem c1_all_keys : c1AllD 12 0 4096 = true := by decide

/-- C1: the decode-table builder assigns a handler to every one of the 4096
dispatch keys through the fixed precedence chain of mask/pattern rules
(`gen_lut` is a total function mirroring that chain); for every key the
selected handler's own mask/pattern rule holds of the key's reconstructed
skeleton — in particular a key falling through all rules satisfies the
undefined bit pattern (bits 25-27 = 011, bit 4 = 1), which the builder
asserts — and the sub-variant booleans stored for the handler equal the
skeleton's corresponding bits. -/
theorem gen_lut_pattern_consistent :
    ∀ k : Fin 4096,
      armSkeleton k.val &&& (classRule (gen_lut k.val)).1 = (classRule (gen_lut k.val)).2 ∧
      classBitsOk (gen_lut k.val) (armSkeleton k.val) = true := by
  intro k
  have h := c1AllD_spec 12 0 4096 c1_all_keys k.val k.isLt
  rw [Nat.zero_add] at h
  unfold c1ok at h
  rw [Bool.and_eq_true, beq_iff_eq] at h
  exact ⟨h.1, h.2⟩

/-! ## C9: reads from unknown or unmapped regions return zero -/

/-- C9: a read from an address decoding to an unknown region, or to shared
WRAM while it is unmapped on the ARM9 side, is not fatal: it produces the
zero default value of the requested width (the model's `arm9_read` is a pure
function of the memory state, matching the source arms, which only log). -/
theorem arm9_read_unknown_returns_zero :
    ∀ (m : Arm9Mem) (width addr : Nat),
      (ARM9MemoryRegion.from_addr addr m.cp15 = .Unknown ∨
        (ARM9MemoryRegion.from_addr addr m.cp15 = .SharedWRAM ∧
          m.wramcnt_arm9_mask = 0)) →
      arm9_read m width addr = .value 0 := by
  intro m width addr h
  unfold arm9_read
  rcases h with h | ⟨h, hm⟩
  · rw [h]
  · rw [h]
    simp [hm]

/-- A concrete memory state with empty TCM ranges and unmapped shared WRAM. -/
def c9mem : Arm9Mem :=
  { cp15 := { addr_in_itcm := fun _ => false, addr_in_dtcm := fun _ => false },
    itcm := fun _ => 0, dtcm := fun _ => 0, main_mem := fun _ => 0,
    shared_wram := fun _ => 0, bios9 := fun _ => 0,
    itcm_mask := 0x7FFF, dtcm_mask := 0x3FFF, main_mem_mask := 0x3FFFFF,
    wramcnt_arm9_offset := 0, wramcnt_arm9_mask := 0 }

theorem arm9_read_unknown_returns_zero_witness :
    ARM9MemoryRegion.from_addr 0x0B000000 c9mem.cp15 = .Unknown ∧
    ARM9MemoryRegion.from_addr 0x03000000 c9mem.cp15 = .SharedWRAM ∧
    arm9_read c9mem 32 0x0B000000 = .value 0 ∧
    arm9_read c9mem 8 0x03000000 = .value 0 :=
  ⟨rfl, rfl,
    arm9_read_unknown_returns_zero c9mem 32 0x0B000000 (Or.inl rfl),
    arm9_read_unknown_returns_zero c9mem 8 0x03000000 (Or.inr ⟨rfl, rfl⟩)⟩

/-! ## C4: multiply-accumulate (corrected) -/

/-- A register file for the multiply counterexample: `MLA r1, r2, r3, r4`
with r2 = 7, r3 = 3, r4 = 100 and a prior destination value r1 = 5. -/
def mlaState : Arm7 :=
  { gpr := fun i =>
      if i = 2 then 7 else if i = 3 then 3 else if i = 4 then 100
      else if i = 1 then 5 else 0,
    pc := 8, cpsr := 0xD3, spsr := 0x10, mode := .SVC, ibuf0 := 0, ibuf1 := 0,
    mem := fun _ => 0, trace := [], nextAccess := .S }

/-- C4 counterexample: for `MLA r1, r2, r3, r4` (instruction `0xE0214392`,
operands r2 = 7 and r3 = 3, accumulate register r4 = 100, destination prior
value r1 = 5) the handler writes 3·7 + 100 = 121, while the claim's
"product plus the destination register's prior value" is 3·7 + 5 = 26. -/
theorem mla_accumulate_is_not_dest :
    (Arm7.mul_mula true false mlaState 0xE0214392).map (fun s => s.gpr 1) = some 121 ∧
    mlaState.gpr 3 * mlaState.gpr 2 + mlaState.gpr 1 = 26 ∧ (121 : Nat) ≠ 26 :=
  ⟨rfl, rfl, by decide⟩

/-! ## Arithmetic and alignment lemmas -/

theorem M32_pos : 0 < M32 := by norm_num [M32]

theorem w32_lt (x : Nat) : w32 x < M32 := Nat.mod_lt _ M32_pos

theorem w32_small {x : Nat} (h : x < M32) : w32 x = x := Nat.mod_eq_of_lt h

theorem testBit_fc (i : Nat) :
    (0xFFFFFFFC : Nat).testBit i = (decide (2 ≤ i) && decide (i < 32)) := by
  have h : (0xFFFFFFFC : Nat) = (2 ^ 32 - 1) ^^^ (2 ^ 2 - 1) := by decide
  rw [h, Nat.testBit_xor, Nat.testBit_two_pow_sub_one, Nat.testBit_two_pow_sub_one]
  by_cases h1 : i < 2 <;> by_cases h2 : i < 32 <;> simp [h1, h2] <;> omega


theorem land_fc_lt (x : Nat) : x &&& 0xFFFFFFFC < M32 :=
  lt_of_le_of_lt Nat.and_le_right (by norm_num [M32])

theorem land_fc_mod4 (x : Nat) : (x &&& 0xFFFFFFFC) % 4 = 0 := by
  have h : (x &&& 0xFFFFFFFC) &&& (2 ^ 2 - 1) = (x &&& 0xFFFFFFFC) % 2 ^ 2 :=
    Nat.and_pow_two_sub_one_eq_mod _ 2
  have h2 : ((2 : Nat) ^ 2 - 1) = 3 := by norm_num
  have h3 : ((2 : Nat) ^ 2) = 4 := by norm_num
  rw [h2, h3] at h
  rw [← h, Nat.and_assoc]
  have h4 : (0xFFFFFFFC : Nat) &&& 3 = 0 := by decide
  rw [h4, Nat.and_zero]

theorem land_fc_self {x : Nat} (hl : x < M32) (h4 : x % 4 = 0) :
    x &&& 0xFFFFFFFC = x := by
  apply Nat.eq_of_testBit_eq
  intro i
  rw [Nat.testBit_and, testBit_fc]
  by_cases h2 : 2 ≤ i
  · by_cases h32 : i < 32
    · simp [h2, h32]
    · have hx : x.testBit i = false := by
        apply Nat.testBit_eq_false_of_lt
        calc x < M32 := hl
          _ = 2 ^ 32 := by norm_num [M32]
          _ ≤ 2 ^ i := Nat.pow_le_pow_right (by norm_num) (by omega)
      simp [hx]
  · have hi : i < 2 := by omega
    have hx : x.testBit i = false := by
      have hm : (x % 2 ^ 2).testBit i = (decide (i < 2) && x.testBit i) :=
        Nat.testBit_mod_two_pow x 2 i
      have hz : x % 2 ^ 2 = 0 := by norm_num; omega
      rw [hz] at hm
      simp [hi] at hm
      simp [hm]
    simp [hx]

theorem land_fc_w32 (x : Nat) : w32 (x &&& 0xFFFFFFFC) = x &&& 0xFFFFFFFC :=
  w32_small (land_fc_lt x)

theorem land_fc_idem (x : Nat) :
    (x &&& 0xFFFFFFFC) &&& 0xFFFFFFFC = x &&& 0xFFFFFFFC := by
  rw [Nat.and_assoc]
  have h : (0xFFFFFFFC : Nat) &&& 0xFFFFFFFC = 0xFFFFFFFC := by decide
  rw [h]

theorem walign4 (x : Nat) :
    w32 ((x &&& 0xFFFFFFFC) + 4) &&& 0xFFFFFFFC = w32 ((x &&& 0xFFFFFFFC) + 4) := by
  apply land_fc_self (w32_lt _)
  have hdvd : (4 : Nat) ∣ M32 := by norm_num [M32]
  rw [w32, Nat.mod_mod_of_dvd _ hdvd]
  have := land_fc_mod4 x
  omega

theorem testBit_fe (i : Nat) :
    (0xFFFFFFFE : Nat).testBit i = (decide (1 ≤ i) && decide (i < 32)) := by
  have h : (0xFFFFFFFE : Nat) = (2 ^ 32 - 1) ^^^ (2 ^ 1 - 1) := by decide
  rw [h, Nat.testBit_xor, Nat.testBit_two_pow_sub_one, Nat.testBit_two_pow_sub_one]
  by_cases h1 : i < 1 <;> by_cases h2 : i < 32 <;> simp [h1, h2] <;> omega

theorem land_fe_lt (x : Nat) : x &&& 0xFFFFFFFE < M32 :=
  lt_of_le_of_lt Nat.and_le_right (by norm_num [M32])

theorem land_fe_mod2 (x : Nat) : (x &&& 0xFFFFFFFE) % 2 = 0 := by
  have h : (x &&& 0xFFFFFFFE) &&& (2 ^ 1 - 1) = (x &&& 0xFFFFFFFE) % 2 ^ 1 :=
    Nat.and_pow_two_sub_one_eq_mod _ 1
  have h2 : ((2 : Nat) ^ 1 - 1) = 1 := by norm_num
  have h3 : ((2 : Nat) ^ 1) = 2 := by norm_num
  rw [h2, h3] at h
  rw [← h, Nat.and_assoc]
  have h4 : (0xFFFFFFFE : Nat) &&& 1 = 0 := by decide
  rw [h4, Nat.and_zero]

theorem land_fe_self {x : Nat} (hl : x < M32) (h2 : x % 2 = 0) :
    x &&& 0xFFFFFFFE = x := by
  apply Nat.eq_of_testBit_eq
  intro i
  rw [Nat.testBit_and, testBit_fe]
  by_cases h1 : 1 ≤ i
  · by_cases h32 : i < 32
    · simp [h1, h32]
    · have hx : x.testBit i = false := by
        apply Nat.testBit_eq_false_of_lt
        calc x < M32 := hl
          _ = 2 ^ 32 := by norm_num [M32]
          _ ≤ 2 ^ i := Nat.pow_le_pow_right (by norm_num) (by omega)
      simp [hx]
  · have hi : i = 0 := by omega
    subst hi
    have hx : x.testBit 0 = false := by
      rw [Nat.testBit_zero]
      simp
      omega
    simp [hx]

theorem land_fe_idem (x : Nat) :
    (x &&& 0xFFFFFFFE) &&& 0xFFFFFFFE = x &&& 0xFFFFFFFE := by
  rw [Nat.and_assoc]
  have h : (0xFFFFFFFE : Nat) &&& 0xFFFFFFFE = 0xFFFFFFFE := by decide
  rw [h]

theorem land_fe_w32 (x : Nat) : w32 (x &&& 0xFFFFFFFE) = x &&& 0xFFFFFFFE :=
  w32_small (land_fe_lt x)

theorem walign2 (x : Nat) :
    w32 ((x &&& 0xFFFFFFFE) + 2) &&& 0xFFFFFFFE = w32 ((x &&& 0xFFFFFFFE) + 2) := by
  apply land_fe_self (w32_lt _)
  have hdvd : (2 : Nat) ∣ M32 := by norm_num [M32]
  rw [w32, Nat.mod_mod_of_dvd _ hdvd]
  have := land_fe_mod2 x
  omega

/-! ## State-operation projection lemmas -/

namespace Arm7

@[simp] theorem prefetch_gpr (s : Arm7) (a : Acc) : (s.instruction_prefetch32 a).gpr = s.gpr := rfl

@[simp] theorem prefetch_pc (s : Arm7) (a : Acc) : (s.instruction_prefetch32 a).pc = s.pc := rfl

@[simp] theorem prefetch_cpsr (s : Arm7) (a : Acc) : (s.instruction_prefetch32 a).cpsr = s.cpsr := rfl

@[simp] theorem prefetch_spsr (s : Arm7) (a : Acc) : (s.instruction_prefetch32 a).spsr = s.spsr := rfl

@[simp] theorem prefetch_mem (s : Arm7) (a : Acc) : (s.instruction_prefetch32 a).mem = s.mem := rfl

@[simp] theorem prefetch_mode (s : Arm7) (a : Acc) : (s.instruction_prefetch32 a).mode = s.mode := rfl

@[simp] theorem prefetch_ibuf0 (s : Arm7) (a : Acc) : (s.instruction_prefetch32 a).ibuf0 = s.ibuf0 := rfl

@[simp] theorem prefetch_trace (s : Arm7) (a : Acc) :
    (s.instruction_prefetch32 a).trace = s.trace ++ [Ev.rd 32 a (w32 (s.pc &&& 0xFFFFFFFC))] := rfl

@[simp] theorem readU8_fst (s : Arm7) (a : Acc) (x : Nat) :
    (s.readU8 a x).1 = read8m s.mem x := rfl

@[simp] theorem readU16_fst (s : Arm7) (a : Acc) (x : Nat) :
    (s.readU16 a x).1 = read16m s.mem x := rfl

@[simp] theorem readU32_fst (s : Arm7) (a : Acc) (x : Nat) :
    (s.readU32 a x).1 = read32m s.mem x := rfl

@[simp] theorem readU8_snd_gpr (s : Arm7) (a : Acc) (x : Nat) :
    (s.readU8 a x).2.gpr = s.gpr := rfl

@[simp] theorem readU16_snd_gpr (s : Arm7) (a : Acc) (x : Nat) :
    (s.readU16 a x).2.gpr = s.gpr := rfl

@[simp] theorem readU32_snd_gpr (s : Arm7) (a : Acc) (x : Nat) :
    (s.readU32 a x).2.gpr = s.gpr := rfl

@[simp] theorem readU32_snd_mem (s : Arm7) (a : Acc) (x : Nat) :
    (s.readU32 a x).2.mem = s.mem := rfl

@[simp] theorem readU32_snd_pc (s : Arm7) (a : Acc) (x : Nat) :
    (s.readU32 a x).2.pc = s.pc := rfl

@[simp] theorem readU32_snd_cpsr (s : Arm7) (a : Acc) (x : Nat) :
    (s.readU32 a x).2.cpsr = s.cpsr := rfl

@[simp] theorem readU32_snd_spsr (s : Arm7) (a : Acc) (x : Nat) :
    (s.readU32 a x).2.spsr = s.spsr := rfl

@[simp] theorem readU32_snd_trace (s : Arm7) (a : Acc) (x : Nat) :
    (s.readU32 a x).2.trace = s.trace ++ [Ev.rd 32 a (w32 x)] := rfl

@[simp] theorem readU32_snd_mode (s : Arm7) (a : Acc) (x : Nat) :
    (s.readU32 a x).2.mode = s.mode := rfl

@[simp] theorem readU32_snd_ibuf0 (s : Arm7) (a : Acc) (x : Nat) :
    (s.readU32 a x).2.ibuf0 = s.ibuf0 := rfl

@[simp] theorem readU32_snd_ibuf1 (s : Arm7) (a : Acc) (x : Nat) :
    (s.readU32 a x).2.ibuf1 = s.ibuf1 := rfl

@[simp] theorem readU32_snd_nextAccess (s : Arm7) (a : Acc) (x : Nat) :
    (s.readU32 a x).2.nextAccess = s.nextAccess := rfl

@[simp] theorem get_reg_i_15 (s : Arm7) : s.get_reg_i 15 = s.pc := rfl

@[simp] theorem writeU32_gpr (s : Arm7) (a : Acc) (x v : Nat) :
    (s.writeU32 a x v).gpr = s.gpr := rfl

@[simp] theorem writeU32_pc (s : Arm7) (a : Acc) (x v : Nat) :
    (s.writeU32 a x v).pc = s.pc := rfl

@[simp] theorem writeU32_cpsr (s : Arm7) (a : Acc) (x v : Nat) :
    (s.writeU32 a x v).cpsr = s.cpsr := rfl

@[simp] theorem writeU32_spsr (s : Arm7) (a : Acc) (x v : Nat) :
    (s.writeU32 a x v).spsr = s.spsr := rfl

@[simp] theorem writeU32_mem (s : Arm7) (a : Acc) (x v : Nat) :
    (s.writeU32 a x v).mem = write32m s.mem x v := rfl

@[simp] theorem writeU32_trace (s : Arm7) (a : Acc) (x v : Nat) :
    (s.writeU32 a x v).trace = s.trace ++ [Ev.wr 32 a (w32 x) (w32 v)] := rfl

@[simp] theorem internal_gpr (s : Arm7) : s.internal.gpr = s.gpr := rfl

@[simp] theorem internal_pc (s : Arm7) : s.internal.pc = s.pc := rfl

@[simp] theorem internal_cpsr (s : Arm7) : s.internal.cpsr = s.cpsr := rfl

@[simp] theorem internal_spsr (s : Arm7) : s.internal.spsr = s.spsr := rfl

@[simp] theorem internal_mem (s : Arm7) : s.internal.mem = s.mem := rfl

@[simp] theorem internal_mode (s : Arm7) : s.internal.mode = s.mode := rfl

@[simp] theorem internal_trace (s : Arm7) : s.internal.trace = s.trace ++ [Ev.internal] := rfl

@[simp] theorem mulclocks_gpr (s : Arm7) (op : Nat) (sg : Bool) :
    (s.inc_mul_clocks op sg).gpr = s.gpr := rfl

@[simp] theorem mulclocks_pc (s : Arm7) (op : Nat) (sg : Bool) :
    (s.inc_mul_clocks op sg).pc = s.pc := rfl

@[simp] theorem mulclocks_cpsr (s : Arm7) (op : Nat) (sg : Bool) :
    (s.inc_mul_clocks op sg).cpsr = s.cpsr := rfl

@[simp] theorem mulclocks_trace (s : Arm7) (op : Nat) (sg : Bool) :
    (s.inc_mul_clocks op sg).trace = s.trace ++ [Ev.mulClocks (w32 op) sg] := rfl

@[simp] theorem set_reg_i_cpsr (s : Arm7) (i v : Nat) : (s.set_reg_i i v).cpsr = s.cpsr := by
  unfold set_reg_i; split <;> rfl

@[simp] theorem set_reg_i_spsr (s : Arm7) (i v : Nat) : (s.set_reg_i i v).spsr = s.spsr := by
  unfold set_reg_i; split <;> rfl

@[simp] theorem set_reg_i_mem (s : Arm7) (i v : Nat) : (s.set_reg_i i v).mem = s.mem := by
  unfold set_reg_i; split <;> rfl

@[simp] theorem set_reg_i_mode (s : Arm7) (i v : Nat) : (s.set_reg_i i v).mode = s.mode := by
  unfold set_reg_i; split <;> rfl

@[simp] theorem set_reg_i_trace (s : Arm7) (i v : Nat) : (s.set_reg_i i v).trace = s.trace := by
  unfold set_reg_i; split <;> rfl

@[simp] theorem set_reg_i_ibuf0 (s : Arm7) (i v : Nat) : (s.set_reg_i i v).ibuf0 = s.ibuf0 := by
  unfold set_reg_i; split <;> rfl

@[simp] theorem set_reg_i_ibuf1 (s : Arm7) (i v : Nat) : (s.set_reg_i i v).ibuf1 = s.ibuf1 := by
  unfold set_reg_i; split <;> rfl

theorem set_reg_i_pc_ne (s : Arm7) {i : Nat} (v : Nat) (h : i ≠ 15) :
    (s.set_reg_i i v).pc = s.pc := by
  unfold set_reg_i
  rw [if_neg h]

@[simp] theorem set_reg_i_pc_15 (s : Arm7) (v : Nat) : (s.set_reg_i 15 v).pc = v := rfl

theorem set_reg_i_gpr_ne (s : Arm7) {i : Nat} (v : Nat) (h : i ≠ 15) :
    (s.set_reg_i i v).gpr = fun j => if j = i then v else s.gpr j := by
  unfold set_reg_i
  rw [if_neg h]

@[simp] theorem set_reg_i_gpr_15 (s : Arm7) (v : Nat) : (s.set_reg_i 15 v).gpr = s.gpr := rfl

theorem set_reg_i_gpr_self (s : Arm7) {i : Nat} (v : Nat) (h : i ≠ 15) :
    (s.set_reg_i i v).gpr i = v := by
  rw [set_reg_i_gpr_ne s v h]
  simp

@[simp] theorem get_reg_i_set_self (s : Arm7) (i v : Nat) :
    (s.set_reg_i i v).get_reg_i i = v := by
  unfold set_reg_i get_reg_i
  by_cases h : i = 15 <;> simp [h]

@[simp] theorem setCpsrBit_gpr (s : Arm7) (n : Nat) (b : Bool) : (s.setCpsrBit n b).gpr = s.gpr := by
  unfold setCpsrBit; split <;> rfl

@[simp] theorem setCpsrBit_pc (s : Arm7) (n : Nat) (b : Bool) : (s.setCpsrBit n b).pc = s.pc := by
  unfold setCpsrBit; split <;> rfl

@[simp] theorem setCpsrBit_spsr (s : Arm7) (n : Nat) (b : Bool) : (s.setCpsrBit n b).spsr = s.spsr := by
  unfold setCpsrBit; split <;> rfl

@[simp] theorem setCpsrBit_mem (s : Arm7) (n : Nat) (b : Bool) : (s.setCpsrBit n b).mem = s.mem := by
  unfold setCpsrBit; split <;> rfl

@[simp] theorem setCpsrBit_mode (s : Arm7) (n : Nat) (b : Bool) : (s.setCpsrBit n b).mode = s.mode := by
  unfold setCpsrBit; split <;> rfl

@[simp] theorem setCpsrBit_trace (s : Arm7) (n : Nat) (b : Bool) : (s.setCpsrBit n b).trace = s.trace := by
  unfold setCpsrBit; split <;> rfl

@[simp] theorem setCpsrBit_ibuf0 (s : Arm7) (n : Nat) (b : Bool) : (s.setCpsrBit n b).ibuf0 = s.ibuf0 := by
  unfold setCpsrBit; split <;> rfl

@[simp] theorem setCpsrBit_ibuf1 (s : Arm7) (n : Nat) (b : Bool) : (s.setCpsrBit n b).ibuf1 = s.ibuf1 := by
  unfold setCpsrBit; split <;> rfl

@[simp] theorem setCPSR_cpsr (s : Arm7) (v : Nat) : (s.setCPSR v).cpsr = v := rfl

@[simp] theorem setCPSR_gpr (s : Arm7) (v : Nat) : (s.setCPSR v).gpr = s.gpr := rfl

@[simp] theorem setCPSR_pc (s : Arm7) (v : Nat) : (s.setCPSR v).pc = s.pc := rfl

@[simp] theorem setCPSR_spsr (s : Arm7) (v : Nat) : (s.setCPSR v).spsr = s.spsr := rfl

@[simp] theorem setCPSR_mem (s : Arm7) (v : Nat) : (s.setCPSR v).mem = s.mem := rfl

@[simp] theorem setCPSR_trace (s : Arm7) (v : Nat) : (s.setCPSR v).trace = s.trace := rfl

@[simp] theorem set_mode_gpr (s : Arm7) (m : Mode) : (s.set_mode m).gpr = s.gpr := rfl

@[simp] theorem set_mode_pc (s : Arm7) (m : Mode) : (s.set_mode m).pc = s.pc := rfl

@[simp] theorem set_mode_cpsr (s : Arm7) (m : Mode) : (s.set_mode m).cpsr = s.cpsr := rfl

@[simp] theorem set_mode_spsr (s : Arm7) (m : Mode) : (s.set_mode m).spsr = s.spsr := rfl

@[simp] theorem set_mode_mem (s : Arm7) (m : Mode) : (s.set_mode m).mem = s.mem := rfl

@[simp] theorem set_mode_trace (s : Arm7) (m : Mode) : (s.set_mode m).trace = s.trace := rfl

@[simp] theorem set_mode_ibuf0 (s : Arm7) (m : Mode) : (s.set_mode m).ibuf0 = s.ibuf0 := rfl

@[simp] theorem set_mode_ibuf1 (s : Arm7) (m : Mode) : (s.set_mode m).ibuf1 = s.ibuf1 := rfl

@[simp] theorem fill_arm_gpr (s : Arm7) : s.fill_arm_instr_buffer.gpr = s.gpr := rfl

@[simp] theorem fill_arm_cpsr (s : Arm7) : s.fill_arm_instr_buffer.cpsr = s.cpsr := rfl

@[simp] theorem fill_arm_spsr (s : Arm7) : s.fill_arm_instr_buffer.spsr = s.spsr := rfl

@[simp] theorem fill_arm_mem (s : Arm7) : s.fill_arm_instr_buffer.mem = s.mem := rfl

@[simp] theorem fill_arm_mode (s : Arm7) : s.fill_arm_instr_buffer.mode = s.mode := rfl

@[simp] theorem fill_arm_pc (s : Arm7) :
    s.fill_arm_instr_buffer.pc = w32 ((s.pc &&& 0xFFFFFFFC) + 4) := rfl

@[simp] theorem fill_arm_ibuf0 (s : Arm7) :
    s.fill_arm_instr_buffer.ibuf0 = read32m s.mem (s.pc &&& 0xFFFFFFFC) := by
  show read32m s.mem ((s.pc &&& 0xFFFFFFFC) &&& 0xFFFFFFFC) = _
  rw [land_fc_idem]

@[simp] theorem fill_arm_ibuf1 (s : Arm7) :
    s.fill_arm_instr_buffer.ibuf1 = read32m s.mem (w32 ((s.pc &&& 0xFFFFFFFC) + 4)) := by
  show read32m s.mem (w32 ((s.pc &&& 0xFFFFFFFC) + 4) &&& 0xFFFFFFFC) = _
  rw [walign4]

@[simp] theorem fill_arm_trace (s : Arm7) :
    s.fill_arm_instr_buffer.trace = s.trace ++
      [Ev.rd 32 .S (s.pc &&& 0xFFFFFFFC), Ev.rd 32 .S (w32 ((s.pc &&& 0xFFFFFFFC) + 4))] := by
  show s.trace ++ [Ev.rd 32 .S (w32 ((s.pc &&& 0xFFFFFFFC) &&& 0xFFFFFFFC))] ++
    [Ev.rd 32 .S (w32 (w32 ((s.pc &&& 0xFFFFFFFC) + 4) &&& 0xFFFFFFFC))] = _
  rw [land_fc_idem, walign4, land_fc_w32, w32_small (w32_lt _), List.append_assoc]
  rfl

@[simp] theorem fill_thumb_gpr (s : Arm7) : s.fill_thumb_instr_buffer.gpr = s.gpr := rfl

@[simp] theorem fill_thumb_cpsr (s : Arm7) : s.fill_thumb_instr_buffer.cpsr = s.cpsr := rfl

@[simp] theorem fill_thumb_spsr (s : Arm7) : s.fill_thumb_instr_buffer.spsr = s.spsr := rfl

@[simp] theorem fill_thumb_mem (s : Arm7) : s.fill_thumb_instr_buffer.mem = s.mem := rfl

@[simp] theorem fill_thumb_mode (s : Arm7) : s.fill_thumb_instr_buffer.mode = s.mode := rfl

@[simp] theorem fill_thumb_pc (s : Arm7) :
    s.fill_thumb_instr_buffer.pc = w32 ((s.pc &&& 0xFFFFFFFE) + 2) := rfl

@[simp] theorem fill_thumb_ibuf0 (s : Arm7) :
    s.fill_thumb_instr_buffer.ibuf0 = read16m s.mem (s.pc &&& 0xFFFFFFFE) := by
  show read16m s.mem ((s.pc &&& 0xFFFFFFFE) &&& 0xFFFFFFFE) = _
  rw [land_fe_idem]

@[simp] theorem fill_thumb_ibuf1 (s : Arm7) :
    s.fill_thumb_instr_buffer.ibuf1 = read16m s.mem (w32 ((s.pc &&& 0xFFFFFFFE) + 2)) := by
  show read16m s.mem (w32 ((s.pc &&& 0xFFFFFFFE) + 2) &&& 0xFFFFFFFE) = _
  rw [walign2]

theorem shiftOp_snd_no_cs (s : Arm7) (ty op amt : Nat) (i : Bool) :
    (s.shiftOp ty op amt i false).2 = s := by
  unfold shiftOp
  split <;> rfl

theorem shiftOp_fst_congr (s t : Arm7) (ty op amt : Nat) (i i' : Bool) (cs cs' : Bool) :
    (s.shiftOp ty op amt i cs).1 = (t.shiftOp ty op amt i' cs').1 := by
  unfold shiftOp
  split <;> rfl

theorem aluSub_no_cs (s : Arm7) (a b : Nat) : s.aluSub a b false = (w32 (a + (M32 - w32 b)), s) := rfl

theorem aluAdd_no_cs (s : Arm7) (a b : Nat) : s.aluAdd a b false = (w32 (a + b), s) := rfl

theorem aluAdc_no_cs (s : Arm7) (a b : Nat) :
    s.aluAdc a b false = (w32 (a + b + (if s.cpsr.testBit 29 then 1 else 0)), s) := rfl

theorem aluSbc_no_cs (s : Arm7) (a b : Nat) :
    s.aluSbc a b false =
      (w32 (a + (M32 - w32 b) + (M32 - (if s.cpsr.testBit 29 then 0 else 1))), s) := rfl

set_option maxHeartbeats 2000000 in
/-- With flag updates disabled, the ALU dispatch leaves the state unchanged. -/
theorem dpAlu_snd_no_cs (opcode op1 op2 : Nat) (s : Arm7) :
    (dpAlu opcode op1 op2 false s).2 = s := by
  unfold dpAlu
  split_ifs <;> simp [aluSub_no_cs, aluAdd_no_cs, aluAdc_no_cs, aluSbc_no_cs]

end Arm7

@[simp] theorem onSome_none (Q : Arm7 → Prop) : onSome none Q = True := rfl

@[simp] theorem onSome_some (s : Arm7) (Q : Arm7 → Prop) : onSome (some s) Q = Q s := rfl

theorem internalCount_append (a b : List Ev) :
    internalCount (a ++ b) = internalCount a + internalCount b := by
  unfold internalCount
  exact List.countP_append _ _ _

/-- C4 (amended): the multiply-accumulate handler writes the 32-bit truncated
product of the two multiply operands plus the prior value of the *accumulate*
register named in bits 12-15 (not the destination register of bits 16-19), and
compared with a plain multiply of the same operands it issues exactly one more
internal cycle: its trace is the multiply's trace followed by one internal
cycle. -/
theorem mla_result_and_extra_cycle :
    ∀ (S : Bool) (s : Arm7) (iA iM : Nat),
      (iA >>> 22) &&& 0x3F = (iM >>> 22) &&& 0x3F →
      (iA >>> 4) &&& 0xF = (iM >>> 4) &&& 0xF →
      (iA >>> 8) &&& 0xF = (iM >>> 8) &&& 0xF →
      iA &&& 0xF = iM &&& 0xF →
      onSome (Arm7.mul_mula true S s iA) (fun s1 =>
        s1.get_reg_i ((iA >>> 16) &&& 0xF) =
          w32 (s.get_reg_i ((iA >>> 8) &&& 0xF) * s.get_reg_i (iA &&& 0xF) +
            s.get_reg_i ((iA >>> 12) &&& 0xF)) ∧
        onSome (Arm7.mul_mula false S s iM) (fun s2 =>
          s1.trace = s2.trace ++ [Ev.internal] ∧
          internalCount s1.trace = internalCount s2.trace + 1)) := by
  intro S s iA iM h22 h4 h8 h0
  by_cases hg1 : (iA >>> 22) &&& 0x3F = 0
  case neg =>
    simp [Arm7.mul_mula, hg1]
  by_cases hg2 : (iA >>> 4) &&& 0xF = 9
  case neg =>
    simp [Arm7.mul_mula, hg1, hg2]
  have hm22 : (iM >>> 22) &&& 0x3F = 0 := by rw [← h22]; exact hg1
  have hm4 : (iM >>> 4) &&& 0xF = 9 := by rw [← h4]; exact hg2
  by_cases hm12 : (iM >>> 12) &&& 0xF = 0
  case neg =>
    simp [Arm7.mul_mula, hg1, hg2, hm22, hm4, hm12]
  case pos =>
    simp [Arm7.mul_mula, hg1, hg2, hm22, hm4, hm12, h8, h0, Arm7.set_n, Arm7.set_z,
      internalCount, List.countP_append, List.append_assoc]
    cases S <;> simp [internalCount, List.countP_append, List.append_assoc, h8]

theorem mla_result_and_extra_cycle_witness :
    ((0xE0214392 : Nat) >>> 22) &&& 0x3F = ((0xE0210392 : Nat) >>> 22) &&& 0x3F ∧
    ((0xE0214392 : Nat) >>> 4) &&& 0xF = ((0xE0210392 : Nat) >>> 4) &&& 0xF ∧
    ((0xE0214392 : Nat) >>> 8) &&& 0xF = ((0xE0210392 : Nat) >>> 8) &&& 0xF ∧
    (0xE0214392 : Nat) &&& 0xF = (0xE0210392 : Nat) &&& 0xF ∧
    (Arm7.mul_mula true false mlaState 0xE0214392).isSome = true ∧
    (Arm7.mul_mula false false mlaState 0xE0210392).isSome = true ∧
    onSome (Arm7.mul_mula true false mlaState 0xE0214392) (fun s1 =>
      s1.get_reg_i (((0xE0214392 : Nat) >>> 16) &&& 0xF) =
        w32 (mlaState.get_reg_i (((0xE0214392 : Nat) >>> 8) &&& 0xF) *
          mlaState.get_reg_i ((0xE0214392 : Nat) &&& 0xF) +
          mlaState.get_reg_i (((0xE0214392 : Nat) >>> 12) &&& 0xF)) ∧
      onSome (Arm7.mul_mula false false mlaState 0xE0210392) (fun s2 =>
        s1.trace = s2.trace ++ [Ev.internal] ∧
        internalCount s1.trace = internalCount s2.trace + 1)) :=
  ⟨by decide, by decide, by decide, by decide, rfl, rfl,
    mla_result_and_extra_cycle false mlaState 0xE0214392 0xE0210392
      (by decide) (by decide) (by decide) (by decide)⟩

namespace Arm7

@[simp] theorem get_reg_i_prefetch (s : Arm7) (a : Acc) (i : Nat) :
    (s.instruction_prefetch32 a).get_reg_i i = s.get_reg_i i := by
  unfold get_reg_i
  simp

@[simp] theorem get_reg_i_internal (s : Arm7) (i : Nat) :
    s.internal.get_reg_i i = s.get_reg_i i := by
  unfold get_reg_i
  simp

theorem get_reg_i_set_other (s : Arm7) {i j : Nat} (v : Nat) (h : j ≠ i) (h15 : j ≠ 15) :
    (s.set_reg_i i v).gpr j = s.gpr j := by
  unfold set_reg_i
  split
  · rfl
  · simp [h]

/-- The load `exec` closure suppresses write-back exactly when the loaded
register is the base register. -/
theorem sdtExec_load_snd (B : Bool) (base_reg rd : Nat) (wb0 : Bool) (addr : Nat)
    (s2 : Arm7) :
    (Arm7.sdtExec B true base_reg rd wb0 addr s2).2 =
      (if rd = base_reg then false else wb0) := by
  cases B <;> by_cases h15 : rd = 15 <;> simp [Arm7.sdtExec, h15]

/-- The load `exec` closure leaves the load value in the register (for a
register other than the program counter). -/
theorem sdtExec_load_fst_gpr (B : Bool) (base_reg rd : Nat) (wb0 : Bool) (addr : Nat)
    (s2 : Arm7) (hrd : rd ≠ 15) :
    (Arm7.sdtExec B true base_reg rd wb0 addr s2).1.gpr rd =
      sdtLoadValue B s2.mem addr := by
  cases B <;> simp [Arm7.sdtExec, hrd, Arm7.set_reg_i_gpr_self _ _ hrd]

/-- The write-back step after the load `exec` closure never disturbs the
loaded register when it is not the program counter. -/
theorem sdtExec_wb_gpr (B : Bool) (base_reg rd : Nat) (wb0 : Bool) (addr wba : Nat)
    (s2 : Arm7) (hrd : rd ≠ 15) :
    (if (Arm7.sdtExec B true base_reg rd wb0 addr s2).2
     then (Arm7.sdtExec B true base_reg rd wb0 addr s2).1.set_reg_i base_reg wba
     else (Arm7.sdtExec B true base_reg rd wb0 addr s2).1).gpr rd
    = sdtLoadValue B s2.mem addr := by
  rw [sdtExec_load_snd]
  by_cases hb : rd = base_reg
  · rw [if_pos hb]
    simp only [Bool.false_eq_true, if_false]
    exact sdtExec_load_fst_gpr B base_reg rd wb0 addr s2 hrd
  · rw [if_neg hb]
    cases wb0
    · simp only [Bool.false_eq_true, if_false]
      exact sdtExec_load_fst_gpr B base_reg rd false addr s2 hrd
    · simp only [if_true]
      rw [Arm7.get_reg_i_set_other _ _ hb hrd]
      exact sdtExec_load_fst_gpr B base_reg rd true addr s2 hrd

/-- The single-data-transfer load path stores the computed load value into the
source/destination register, and nothing later in the handler overwrites it
when that register is not the program counter. -/
theorem sdt_load_gpr (I P U B W : Bool) (s : Arm7) (instr : Nat)
    (hrd : (instr >>> 12) &&& 0xF ≠ 15) :
    onSome (Arm7.single_data_transfer I P U B W true s instr) (fun s' =>
      s'.gpr ((instr >>> 12) &&& 0xF) = sdtLoadValue B s.mem (sdtAddress I P U s instr)) := by
  by_cases hg : (instr >>> 26) &&& 3 = 1
  case neg => simp [Arm7.single_data_transfer, hg]
  cases I with
  | false =>
    cases P with
    | true =>
      simpa [Arm7.single_data_transfer, hg, sdtAddress, sdtOffsetVal] using
        sdtExec_wb_gpr B ((instr >>> 16) &&& 0xF) ((instr >>> 12) &&& 0xF) (W || !true)
          _ _ (s.instruction_prefetch32 .N) hrd
    | false =>
      by_cases h21 : (instr >>> 21) % 2 = 1
      · simp [Arm7.single_data_transfer, hg, h21]
      · simpa [Arm7.single_data_transfer, hg, h21, sdtAddress, sdtOffsetVal] using
          sdtExec_wb_gpr B ((instr >>> 16) &&& 0xF) ((instr >>> 12) &&& 0xF) (W || !false)
            _ _ (s.instruction_prefetch32 .N) hrd
  | true =>
    by_cases h4 : (instr >>> 4) % 2 = 1
    case pos => simp [Arm7.single_data_transfer, hg, h4]
    by_cases h15 : instr &&& 0xF = 15
    case pos => simp [Arm7.single_data_transfer, hg, h4, h15]
    have hsnd := Arm7.shiftOp_snd_no_cs (s.instruction_prefetch32 .N) ((instr >>> 5) &&& 3)
      (s.get_reg_i (instr &&& 0xF)) ((instr >>> 7) &&& 0x1F) true
    have heta : (s.instruction_prefetch32 .N).shiftOp ((instr >>> 5) &&& 3)
        (s.get_reg_i (instr &&& 0xF)) ((instr >>> 7) &&& 0x1F) true false
        = (((s.instruction_prefetch32 .N).shiftOp ((instr >>> 5) &&& 3)
            (s.get_reg_i (instr &&& 0xF)) ((instr >>> 7) &&& 0x1F) true false).1,
          s.instruction_prefetch32 .N) := by
      have h0 := (Prod.mk.eta (p := (s.instruction_prefetch32 .N).shiftOp ((instr >>> 5) &&& 3)
        (s.get_reg_i (instr &&& 0xF)) ((instr >>> 7) &&& 0x1F) true false)).symm
      rw [hsnd] at h0
      exact h0
    have hcong := Arm7.shiftOp_fst_congr (s.instruction_prefetch32 .N) s
      ((instr >>> 5) &&& 3) (s.get_reg_i (instr &&& 0xF)) ((instr >>> 7) &&& 0x1F)
      true true false false
    cases P with
    | true =>
      simp only [Arm7.single_data_transfer, hg, h4, h15]
      simp only [Arm7.get_reg_i_prefetch]
      rw [heta]
      simpa [hg, h4, h15, sdtAddress, sdtOffsetVal, hcong] using
        sdtExec_wb_gpr B ((instr >>> 16) &&& 0xF) ((instr >>> 12) &&& 0xF) (W || !true)
          _ _ (s.instruction_prefetch32 .N) hrd
    | false =>
      by_cases h21 : (instr >>> 21) % 2 = 1
      · simp only [Arm7.single_data_transfer, hg, h4, h15]
        simp only [Arm7.get_reg_i_prefetch]
        rw [heta]
        simp [hg, h4, h15, h21]
      · simp only [Arm7.single_data_transfer, hg, h4, h15]
        simp only [Arm7.get_reg_i_prefetch]
        rw [heta]
        simpa [hg, h4, h15, h21, sdtAddress, sdtOffsetVal, hcong] using
          sdtExec_wb_gpr B ((instr >>> 16) &&& 0xF) ((instr >>> 12) &&& 0xF) (W || !false)
            _ _ (s.instruction_prefetch32 .N) hrd

/-- The halfword/signed load `exec` closure leaves the load value in the
register (for a register other than the program counter), and the subsequent
write-back never disturbs it. -/
theorem hsdtExec_wb_gpr (opcode : Nat) (base_reg rd : Nat) (wb0 : Bool) (addr wba : Nat)
    (s2 : Arm7) (hrd : rd ≠ 15) :
    ∀ p, Arm7.hsdtExec opcode true base_reg rd wb0 addr s2 = some p →
      hsdtLoadValue opcode s2.mem addr =
        some ((if p.2 then p.1.set_reg_i base_reg wba else p.1).gpr rd) := by
  intro p hp
  unfold Arm7.hsdtExec at hp
  cases hv : hsdtLoadValue opcode s2.mem addr with
  | none => rw [hv] at hp; simp at hp
  | some value =>
    rw [hv] at hp
    simp only [if_true, Option.some.injEq] at hp
    subst hp
    by_cases hb : rd = base_reg
    · subst hb
      simp [hrd, Arm7.set_reg_i_gpr_self _ _ hrd]
    · cases wb0 with
      | false =>
        simp [hb, hrd, Arm7.set_reg_i_gpr_self _ _ hrd]
      | true =>
        simp [hb, hrd, Arm7.get_reg_i_set_other _ _ hb hrd,
          Arm7.set_reg_i_gpr_self _ _ hrd]

/-- The pre-indexed tail of the halfword/signed transfer, over any exec
outcome. -/
theorem hsdt_bind_gpr (opcode : Nat) (base_reg rd : Nat) (wb0 : Bool) (addr wba : Nat)
    (s2 : Arm7) (hrd : rd ≠ 15) :
    onSome ((Arm7.hsdtExec opcode true base_reg rd wb0 addr s2).bind
        (fun p => some (if p.2 then p.1.set_reg_i base_reg wba else p.1)))
      (fun s' => hsdtLoadValue opcode s2.mem addr = some (s'.gpr rd)) := by
  cases hex : Arm7.hsdtExec opcode true base_reg rd wb0 addr s2 with
  | none => simp
  | some p =>
    simpa using hsdtExec_wb_gpr opcode base_reg rd wb0 addr wba s2 hrd p hex

/-- The post-indexed tail of the halfword/signed transfer, with the trailing
pre-bit assertion. -/
theorem hsdt_bind_gpr_post (opcode : Nat) (base_reg rd : Nat) (wb0 : Bool)
    (addr wba : Nat) (c : Prop) [Decidable c] (s2 : Arm7) (hrd : rd ≠ 15) :
    onSome ((Arm7.hsdtExec opcode true base_reg rd wb0 addr s2).bind
        (fun p => if c then none
                  else some (if p.2 then p.1.set_reg_i base_reg wba else p.1)))
      (fun s' => hsdtLoadValue opcode s2.mem addr = some (s'.gpr rd)) := by
  cases hex : Arm7.hsdtExec opcode true base_reg rd wb0 addr s2 with
  | none => simp
  | some p =>
    by_cases hc : c
    · simp [hc]
    · simpa [hc] using hsdtExec_wb_gpr opcode base_reg rd wb0 addr wba s2 hrd p hex

/-- The halfword/signed data transfer load path: the computed load value ends
in the source/destination register when it is not the program counter. -/
theorem hsdt_load_gpr (P U I W S H : Bool) (s : Arm7) (instr : Nat)
    (hrd : (instr >>> 12) &&& 0xF ≠ 15) :
    onSome (Arm7.halfword_and_signed_data_transfer P U I W true S H s instr) (fun s' =>
      hsdtLoadValue ((if S then 2 else 0) + (if H then 1 else 0)) s.mem
        (hsdtAddress P U I s instr) = some (s'.gpr ((instr >>> 12) &&& 0xF))) := by
  by_cases hg : (instr >>> 25) &&& 7 = 0
  case neg => simp [Arm7.halfword_and_signed_data_transfer, hg]
  by_cases h7 : (instr >>> 7) % 2 = 1
  case neg => simp [Arm7.halfword_and_signed_data_transfer, hg, h7]
  by_cases h4 : (instr >>> 4) % 2 = 1
  case neg => simp [Arm7.halfword_and_signed_data_transfer, hg, h7, h4]
  cases I with
  | true =>
    cases P with
    | true =>
      simpa [Arm7.halfword_and_signed_data_transfer, hg, h7, h4, hsdtAddress] using
        hsdt_bind_gpr ((if S then 2 else 0) + (if H then 1 else 0))
          ((instr >>> 16) &&& 0xF) ((instr >>> 12) &&& 0xF) (W || !true) _ _
          (s.instruction_prefetch32 .N) hrd
    | false =>
      simpa [Arm7.halfword_and_signed_data_transfer, hg, h7, h4, hsdtAddress] using
        hsdt_bind_gpr_post ((if S then 2 else 0) + (if H then 1 else 0))
          ((instr >>> 16) &&& 0xF) ((instr >>> 12) &&& 0xF) (W || !false) _ _
          ((instr >>> 24) &&& 1 ≠ 0) (s.instruction_prefetch32 .N) hrd
  | false =>
    by_cases hhi : (instr >>> 8) &&& 0xF = 0
    case neg => simp [Arm7.halfword_and_signed_data_transfer, hg, h7, h4, hhi]
    cases P with
    | true =>
      simpa [Arm7.halfword_and_signed_data_transfer, hg, h7, h4, hhi, hsdtAddress] using
        hsdt_bind_gpr ((if S then 2 else 0) + (if H then 1 else 0))
          ((instr >>> 16) &&& 0xF) ((instr >>> 12) &&& 0xF) (W || !true) _ _
          (s.instruction_prefetch32 .N) hrd
    | false =>
      simpa [Arm7.halfword_and_signed_data_transfer, hg, h7, h4, hhi, hsdtAddress] using
        hsdt_bind_gpr_post ((if S then 2 else 0) + (if H then 1 else 0))
          ((instr >>> 16) &&& 0xF) ((instr >>> 12) &&& 0xF) (W || !false) _ _
          ((instr >>> 24) &&& 1 ≠ 0) (s.instruction_prefetch32 .N) hrd

end Arm7

/-! ## C5: misaligned word-load rotation -/

/-- C5: a 32-bit load (LDR, and the word form of SWP) from an address with
low bits 1, 2 or 3 yields the word at the aligned-down address rotated right
by misalignment × 8 bits — for every state, hence all four alignments of any
word value (alignment 0 rotates by 0). -/
theorem misaligned_word_load_rotates :
    (∀ (I P U W : Bool) (s : Arm7) (instr : Nat),
      (instr >>> 12) &&& 0xF ≠ 15 →
      onSome (Arm7.single_data_transfer I P U false W true s instr) (fun s' =>
        s'.gpr ((instr >>> 12) &&& 0xF) =
          rotr32 (read32m s.mem (Arm7.sdtAddress I P U s instr &&& 0xFFFFFFFC))
            ((Arm7.sdtAddress I P U s instr &&& 3) * 8))) ∧
    (∀ (s : Arm7) (instr : Nat),
      onSome (Arm7.single_data_swap false s instr) (fun s' =>
        s'.get_reg_i ((instr >>> 12) &&& 0xF) =
          rotr32 (read32m s.mem (s.get_reg_i ((instr >>> 16) &&& 0xF) &&& 0xFFFFFFFC))
            ((s.get_reg_i ((instr >>> 16) &&& 0xF) &&& 3) * 8))) := by
  constructor
  · intro I P U W s instr hrd
    have h := Arm7.sdt_load_gpr I P U false W s instr hrd
    simpa [Arm7.sdtLoadValue] using h
  · intro s instr
    by_cases h1 : (instr >>> 23) &&& 0x1F = 2
    case neg => simp [Arm7.single_data_swap, h1]
    by_cases h2 : (instr >>> 20) &&& 3 = 0
    case neg => simp [Arm7.single_data_swap, h1, h2]
    by_cases h3 : (instr >>> 4) &&& 0xFF = 9
    case neg => simp [Arm7.single_data_swap, h1, h2, h3]
    simp [Arm7.single_data_swap, h1, h2, h3]

/-- The state for the load-rotation witness: r1 points at a memory word
holding 0x11223344. -/
def c5State : Arm7 :=
  { gpr := fun i => if i = 1 then 0x1000 else 0, pc := 8, cpsr := 0xD3, spsr := 0x10,
    mode := .SVC, ibuf0 := 0, ibuf1 := 0,
    mem := fun a =>
      if a = 0x1000 then 0x44 else if a = 0x1001 then 0x33
      else if a = 0x1002 then 0x22 else if a = 0x1003 then 0x11 else 0,
    trace := [], nextAccess := .S }

theorem misaligned_word_load_rotates_witness :
    ((0xE5910002 : Nat) >>> 12) &&& 0xF ≠ 15 ∧
    (Arm7.single_data_transfer false true true false false true c5State 0xE5910000).map
      (fun s => s.gpr 0) = some 0x11223344 ∧
    (Arm7.single_data_transfer false true true false false true c5State 0xE5910001).map
      (fun s => s.gpr 0) = some 0x44112233 ∧
    (Arm7.single_data_transfer false true true false false true c5State 0xE5910002).map
      (fun s => s.gpr 0) = some 0x33441122 ∧
    (Arm7.single_data_transfer false true true false false true c5State 0xE5910003).map
      (fun s => s.gpr 0) = some 0x22334411 ∧
    onSome (Arm7.single_data_transfer false true true false false true c5State 0xE5910002)
      (fun s' => s'.gpr ((0xE5910002 : Nat) >>> 12 &&& 0xF) =
        rotr32 (read32m c5State.mem (Arm7.sdtAddress false true true c5State 0xE5910002 &&& 0xFFFFFFFC))
          ((Arm7.sdtAddress false true true c5State 0xE5910002 &&& 3) * 8)) :=
  ⟨by decide, rfl, rfl, rfl, rfl,
    misaligned_word_load_rotates.1 false true true false c5State 0xE5910002 (by decide)⟩

/-! ## C6: write-back suppression on load with source = base (corrected) -/

/-- The state for the program-counter collision counterexample: the word at
address 0x20 (the program counter) is 0x100. -/
def c6State : Arm7 :=
  { gpr := fun _ => 0, pc := 0x20, cpsr := 0xD3, spsr := 0x10, mode := .SVC,
    ibuf0 := 0, ibuf1 := 0, mem := fun a => if a = 0x21 then 1 else 0,
    trace := [], nextAccess := .S }

/-- C6 counterexample: `LDR r15, [r15]` (instruction 0xE59FF000) has source =
base = the program counter; write-back is suppressed, but the register does
not end up holding the loaded value: the loaded word is 0x100 while the
forced buffer refill leaves the program counter at 0x104. -/
theorem load_collision_pc_counterexample :
    read32m c6State.mem 0x20 = 0x100 ∧
    (Arm7.single_data_transfer false true true false false true c6State 0xE59FF000).map
      (fun s => s.pc) = some 0x104 ∧
    (0x104 : Nat) ≠ 0x100 :=
  ⟨rfl, rfl, by decide⟩

/-- C6 (amended): for every single data transfer and every halfword/signed
data transfer that is a load and whose source/destination register equals the
base register, base-register write-back is suppressed, so — provided that
register is not the program counter, which would instead trigger a buffer
refill — the register ends up holding the loaded value rather than the
updated address. -/
theorem load_collision_suppresses_writeback :
    (∀ (I P U B W : Bool) (s : Arm7) (instr : Nat),
      (instr >>> 12) &&& 0xF = (instr >>> 16) &&& 0xF →
      (instr >>> 12) &&& 0xF ≠ 15 →
      onSome (Arm7.single_data_transfer I P U B W true s instr) (fun s' =>
        s'.gpr ((instr >>> 12) &&& 0xF) = Arm7.sdtLoadValue B s.mem (Arm7.sdtAddress I P U s instr))) ∧
    (∀ (P U I W S H : Bool) (s : Arm7) (instr : Nat),
      (instr >>> 12) &&& 0xF = (instr >>> 16) &&& 0xF →
      (instr >>> 12) &&& 0xF ≠ 15 →
      onSome (Arm7.halfword_and_signed_data_transfer P U I W true S H s instr) (fun s' =>
        Arm7.hsdtLoadValue ((if S then 2 else 0) + (if H then 1 else 0)) s.mem
          (Arm7.hsdtAddress P U I s instr) = some (s'.gpr ((instr >>> 12) &&& 0xF)))) :=
  ⟨fun I P U B W s instr _ hrd => Arm7.sdt_load_gpr I P U B W s instr hrd,
    fun P U I W S H s instr _ hrd => Arm7.hsdt_load_gpr P U I W S H s instr hrd⟩

/-- A state for the suppression witness: `LDR r1, [r1]` with r1 pointing at a
word holding 0x55; after the load r1 holds 0x55, not the base address. -/
def c6wState : Arm7 :=
  { gpr := fun i => if i = 1 then 0x2000 else 0, pc := 8, cpsr := 0xD3, spsr := 0x10,
    mode := .SVC, ibuf0 := 0, ibuf1 := 0,
    mem := fun a => if a = 0x2000 then 0x55 else 0, trace := [], nextAccess := .S }

theorem load_collision_suppresses_writeback_witness :
    ((0xE5B11000 : Nat) >>> 12) &&& 0xF = ((0xE5B11000 : Nat) >>> 16) &&& 0xF ∧
    ((0xE5B11000 : Nat) >>> 12) &&& 0xF ≠ 15 ∧
    (Arm7.single_data_transfer false true true false true true c6wState 0xE5B11000).map
      (fun s => s.gpr 1) = some 0x55 ∧
    onSome (Arm7.single_data_transfer false true true false true true c6wState 0xE5B11000)
      (fun s' => s'.gpr ((0xE5B11000 : Nat) >>> 12 &&& 0xF) =
        Arm7.sdtLoadValue false c6wState.mem (Arm7.sdtAddress false true true c6wState 0xE5B11000)) :=
  ⟨by decide, by decide, rfl,
    load_collision_suppresses_writeback.1 false true true false true c6wState 0xE5B11000
      (by decide) (by decide)⟩

/-! ## C2: data processing with the program counter as destination -/

namespace Arm7

/-- With flag updates disabled, operand-2 computation preserves the status
registers and the memory (only the program counter may be temporarily
advanced, and only the trace otherwise grows). -/
theorem dpOp2_preserve (I : Bool) (opcode : Nat) (s : Arm7) (instr : Nat) :
    ∀ r, Arm7.dpOp2 I false opcode s instr = some r →
      r.2.2.cpsr = s.cpsr ∧ r.2.2.spsr = s.spsr ∧ r.2.2.mem = s.mem := by
  intro r h
  unfold Arm7.dpOp2 at h
  cases I with
  | true =>
    simp only [if_true, ite_true, reduceIte] at h
    split at h
    · rw [Option.some.injEq] at h
      subst h
      simp [Arm7.shiftOp_snd_no_cs]
    · rw [Option.some.injEq] at h
      subst h
      exact ⟨rfl, rfl, rfl⟩
  | false =>
    simp only [Bool.false_eq_true, if_false, ite_false, reduceIte, Bool.false_and] at h
    split at h
    · split at h
      · exact absurd h (by simp)
      · rw [Option.some.injEq] at h
        subst h
        simp [Arm7.shiftOp_snd_no_cs]
    · rw [Option.some.injEq] at h
      subst h
      simp [Arm7.shiftOp_snd_no_cs]

end Arm7

/-- C2: for every data-processing instruction whose destination is register 15
with the set-flags bit on, the ordinary N/Z flag writes are skipped and the
whole current status register is replaced by the saved status register; and
whenever register 15 is actually written (any non-test opcode), a pipeline
refill is performed in the instruction-set width selected by the possibly
just-restored thumb bit — the final status register is exactly the
(restored) one, and the buffer and counter are refetched at the result in
that width. -/
theorem data_proc_pc_dest_special :
    ∀ (I S : Bool) (s : Arm7) (instr : Nat),
      (instr >>> 12) &&& 0xF = 15 →
      onSome (Arm7.data_proc I S s instr) (fun s' =>
        s'.cpsr = (if S then s.spsr else s.cpsr) ∧
        (((instr >>> 21) &&& 0xF) &&& 0xC ≠ 8 →
          ∃ r,
            if Nat.testBit (if S then s.spsr else s.cpsr) 5 then
              s'.pc = w32 ((r &&& 0xFFFFFFFE) + 2) ∧
              s'.ibuf0 = read16m s.mem (r &&& 0xFFFFFFFE) ∧
              s'.ibuf1 = read16m s.mem (w32 ((r &&& 0xFFFFFFFE) + 2))
            else
              s'.pc = w32 ((r &&& 0xFFFFFFFC) + 4) ∧
              s'.ibuf0 = read32m s.mem (r &&& 0xFFFFFFFC) ∧
              s'.ibuf1 = read32m s.mem (w32 ((r &&& 0xFFFFFFFC) + 4)))) := by
  intro I S s instr hd
  unfold Arm7.data_proc
  rw [hd]
  simp only [beq_self_eq_true, Bool.not_true, Bool.and_false, Bool.and_true]
  cases hop : Arm7.dpOp2 I false ((instr >>> 21) &&& 0xF) s instr with
  | none => simp
  | some r =>
    obtain ⟨hc, hs, hm⟩ := Arm7.dpOp2_preserve I ((instr >>> 21) &&& 0xF) s instr r hop
    simp only [onSome_some]
    rw [Arm7.dpAlu_snd_no_cs]
    cases S with
    | true =>
      simp only [if_true, ite_true, reduceIte]
      by_cases h8 : ((instr >>> 21) &&& 0xF) &&& 0xC = 8
      · simp only [h8, ne_eq, not_true_eq_false, if_false, reduceIte]
        constructor
        · split <;> simp [hs]
        · exact fun hcontra => hcontra.elim
      · simp only [h8, ne_eq, not_false_eq_true, if_true, reduceIte, ite_true]
        constructor
        · cases ht : Nat.testBit s.spsr 5 <;> simp [Arm7.get_t, ht, hs]
        · intro _
          refine ⟨(Arm7.dpAlu ((instr >>> 21) &&& 0xF)
            (r.2.2.get_reg_i ((instr >>> 16) &&& 0xF)) r.1 false r.2.2).1, ?_⟩
          cases ht : Nat.testBit s.spsr 5 <;>
            simp [Arm7.get_t, ht, hs, hm]
    | false =>
      simp only [Bool.false_eq_true, if_false, ite_false, reduceIte]
      by_cases h8 : ((instr >>> 21) &&& 0xF) &&& 0xC = 8
      · simp [h8]
      · simp only [h8, ne_eq, not_false_eq_true, if_true, if_false, reduceIte, ite_true,
          onSome_some]
        constructor
        · cases ht : Nat.testBit s.cpsr 5 <;> simp [Arm7.get_t, ht, hc]
        · intro _
          refine ⟨(Arm7.dpAlu ((instr >>> 21) &&& 0xF)
            (r.2.2.get_reg_i ((instr >>> 16) &&& 0xF)) r.1 false r.2.2).1, ?_⟩
          cases ht : Nat.testBit s.cpsr 5 <;>
            simp [Arm7.get_t, ht, hc, hm]

/-- A state for the mode-return witness: SPSR = 0x10 (user mode, thumb bit
clear). -/
def c2State : Arm7 :=
  { gpr := fun i => if i = 14 then 0x3004 else 0, pc := 0x108, cpsr := 0xD3,
    spsr := 0x10, mode := .SVC, ibuf0 := 0, ibuf1 := 0, mem := fun _ => 0,
    trace := [], nextAccess := .S }

theorem data_proc_pc_dest_special_witness :
    ((0xE25EF004 : Nat) >>> 12) &&& 0xF = 15 ∧
    (Arm7.data_proc true true c2State 0xE25EF004).isSome = true ∧
    (Arm7.data_proc true true c2State 0xE25EF004).map (fun s => s.cpsr) = some 0x10 ∧
    onSome (Arm7.data_proc true true c2State 0xE25EF004) (fun s' =>
      s'.cpsr = (if true then c2State.spsr else c2State.cpsr) ∧
      ((((0xE25EF004 : Nat) >>> 21) &&& 0xF) &&& 0xC ≠ 8 →
        ∃ r,
          if Nat.testBit (if true then c2State.spsr else c2State.cpsr) 5 then
            s'.pc = w32 ((r &&& 0xFFFFFFFE) + 2) ∧
            s'.ibuf0 = read16m c2State.mem (r &&& 0xFFFFFFFE) ∧
            s'.ibuf1 = read16m c2State.mem (w32 ((r &&& 0xFFFFFFFE) + 2))
          else
            s'.pc = w32 ((r &&& 0xFFFFFFFC) + 4) ∧
            s'.ibuf0 = read32m c2State.mem (r &&& 0xFFFFFFFC) ∧
            s'.ibuf1 = read32m c2State.mem (w32 ((r &&& 0xFFFFFFFC) + 4)))) :=
  ⟨by decide, rfl, rfl,
    data_proc_pc_dest_special true true c2State 0xE25EF004 (by decide)⟩

/-! ## C3 and C10: block data transfer with an empty register list -/

@[simp] theorem countOnes_zero : countOnes 0 = 0 := rfl

@[simp] theorem w32_zero : w32 0 = 0 := rfl

@[simp] theorem w32_add_M32 (x : Nat) : w32 (x + M32) = w32 x := Nat.add_mod_right x M32

@[simp] theorem w32_w32 (x : Nat) : w32 (w32 x) = w32 x := Nat.mod_mod_of_dvd _ dvd_rfl

@[simp] theorem w32_add_left (a b : Nat) : w32 (w32 a + b) = w32 (a + b) :=
  Nat.mod_add_mod a M32 b

@[simp] theorem w32_add_right (a b : Nat) : w32 (a + w32 b) = w32 (a + b) :=
  Nat.add_mod_mod a b M32

theorem read32m_lt (mem : Nat → Nat) (a : Nat) : read32m mem a < M32 := by
  unfold read32m rdB M32
  have h0 : mem (w32 a) % 256 < 256 := Nat.mod_lt _ (by norm_num)
  have h1 : mem (w32 (a + 1)) % 256 < 256 := Nat.mod_lt _ (by norm_num)
  have h2 : mem (w32 (a + 2)) % 256 < 256 := Nat.mod_lt _ (by norm_num)
  have h3 : mem (w32 (a + 3)) % 256 < 256 := Nat.mod_lt _ (by norm_num)
  omega

/-- A state for the empty-register-list counterexample: `STMIA r1!, {}` with
r1 = 0x1000 and the program counter at 8. -/
def c3State : Arm7 :=
  { gpr := fun i => if i = 1 then 0x1000 else 0, pc := 8, cpsr := 0xD3, spsr := 0x10,
    mode := .SVC, ibuf0 := 0, ibuf1 := 0, mem := fun _ => 0, trace := [],
    nextAccess := .S }

/-- C3 counterexample: `STMIA r1!, {}` (instruction 0xE8A10000, ascending,
base r1 = 0x1000) performs its single transfer at the base address 0x1000 —
not at base + 0x40 = 0x1040 as the claim states — while the base register is
left at 0x1040. -/
theorem block_empty_rlist_counterexample :
    (Arm7.block_data_transfer false true false true false c3State 0xE8A10000).map
      (fun s => (s.trace, s.gpr 1)) =
      some ([Ev.rd 32 .N 8, Ev.wr 32 .N 0x1000 12], 0x1040) ∧
    (0x1000 : Nat) ≠ 0x1000 + 0x40 :=
  ⟨rfl, by decide⟩

/-- C3 (amended): for every block data transfer whose 16-bit register list is
0, in the ascending case exactly one memory transfer occurs, at the
aligned-down base address (the trace is exactly the instruction prefetch plus
that one transfer, plus — for a load — the internal cycle and the forced
refill fetches), and when write-back is selected the base register is left
adjusted by exactly +0x40. -/
theorem block_empty_rlist_behaviour :
    ∀ (P S W L : Bool) (s : Arm7) (instr : Nat),
      (instr >>> 25) &&& 7 = 4 →
      instr &&& 0xFFFF = 0 →
      (instr >>> 16) &&& 0xF ≠ 15 →
      s.get_reg_i ((instr >>> 16) &&& 0xF) < M32 →
      onSome (Arm7.block_data_transfer P true S W L s instr) (fun s' =>
        (W = true → s'.gpr ((instr >>> 16) &&& 0xF) =
          w32 (s.get_reg_i ((instr >>> 16) &&& 0xF) + 0x40)) ∧
        (L = false → s'.trace = s.trace ++
          [Ev.rd 32 .N (w32 (s.pc &&& 0xFFFFFFFC)),
           Ev.wr 32 .N (s.get_reg_i ((instr >>> 16) &&& 0xF) -
             (s.get_reg_i ((instr >>> 16) &&& 0xF) &&& 3)) (w32 (s.pc + 4))]) ∧
        (L = true → s'.trace = s.trace ++
          [Ev.rd 32 .N (w32 (s.pc &&& 0xFFFFFFFC)),
           Ev.rd 32 .S (s.get_reg_i ((instr >>> 16) &&& 0xF) -
             (s.get_reg_i ((instr >>> 16) &&& 0xF) &&& 3)),
           Ev.internal,
           Ev.rd 32 .S (read32m s.mem (s.get_reg_i ((instr >>> 16) &&& 0xF) -
             (s.get_reg_i ((instr >>> 16) &&& 0xF) &&& 3)) &&& 0xFFFFFFFC),
           Ev.rd 32 .S (w32 ((read32m s.mem (s.get_reg_i ((instr >>> 16) &&& 0xF) -
             (s.get_reg_i ((instr >>> 16) &&& 0xF) &&& 3)) &&& 0xFFFFFFFC) + 4))])) := by
  intro P S W L s instr hg hrl hb15 hblt
  have hboff : s.get_reg_i ((instr >>> 16) &&& 0xF) &&& 3 ≤
      s.get_reg_i ((instr >>> 16) &&& 0xF) := Nat.and_le_left
  have hab : s.get_reg_i ((instr >>> 16) &&& 0xF) -
      (s.get_reg_i ((instr >>> 16) &&& 0xF) &&& 3) < M32 := by omega
  have habw : w32 (s.get_reg_i ((instr >>> 16) &&& 0xF) -
      (s.get_reg_i ((instr >>> 16) &&& 0xF) &&& 3)) =
      s.get_reg_i ((instr >>> 16) &&& 0xF) -
      (s.get_reg_i ((instr >>> 16) &&& 0xF) &&& 3) := w32_small hab
  have hsum : w32 (w32 (s.get_reg_i ((instr >>> 16) &&& 0xF) -
      (s.get_reg_i ((instr >>> 16) &&& 0xF) &&& 3)) +
      (s.get_reg_i ((instr >>> 16) &&& 0xF) &&& 3)) =
      s.get_reg_i ((instr >>> 16) &&& 0xF) := by
    rw [habw]
    rw [show s.get_reg_i ((instr >>> 16) &&& 0xF) -
      (s.get_reg_i ((instr >>> 16) &&& 0xF) &&& 3) +
      (s.get_reg_i ((instr >>> 16) &&& 0xF) &&& 3) =
      s.get_reg_i ((instr >>> 16) &&& 0xF) from by omega]
    exact w32_small hblt
  have hvlt := read32m_lt s.mem (s.get_reg_i ((instr >>> 16) &&& 0xF) -
      (s.get_reg_i ((instr >>> 16) &&& 0xF) &&& 3))
  have hplus : s.get_reg_i ((instr >>> 16) &&& 0xF) -
      (s.get_reg_i ((instr >>> 16) &&& 0xF) &&& 3) +
      (s.get_reg_i ((instr >>> 16) &&& 0xF) &&& 3) =
      s.get_reg_i ((instr >>> 16) &&& 0xF) := by omega
  cases L with
  | false =>
    cases S with
    | false =>
      cases W with
      | false =>
        simp [Arm7.block_data_transfer, Arm7.bdtExec, hg, hrl, hb15, hsum, habw, hplus,
          w32_small hblt, Arm7.restore_cpsr, Arm7.set_reg_i_pc_ne _ _ hb15]
      | true =>
        simp [Arm7.block_data_transfer, Arm7.bdtExec, hg, hrl, hb15, hsum, habw, hplus,
          w32_small hblt, Arm7.restore_cpsr, Arm7.set_reg_i_pc_ne _ _ hb15,
          Arm7.set_reg_i_gpr_self _ _ hb15]
    | true =>
      cases W with
      | false =>
        simp [Arm7.block_data_transfer, Arm7.bdtExec, hg, hrl, hb15, hsum, habw, hplus,
          w32_small hblt, Arm7.restore_cpsr, Arm7.set_reg_i_pc_ne _ _ hb15]
      | true =>
        simp [Arm7.block_data_transfer, Arm7.bdtExec, hg, hrl, hb15, hsum, habw, hplus,
          w32_small hblt, Arm7.restore_cpsr, Arm7.set_reg_i_pc_ne _ _ hb15,
          Arm7.set_reg_i_gpr_self _ _ hb15]
  | true =>
    cases S with
    | false =>
      cases W with
      | false =>
        simp [Arm7.block_data_transfer, Arm7.bdtExec, hg, hrl, hb15, hsum, habw, hplus,
          w32_small hblt, Arm7.restore_cpsr, Arm7.set_reg_i_pc_ne _ _ hb15]
      | true =>
        simp [Arm7.block_data_transfer, Arm7.bdtExec, hg, hrl, hb15, hsum, habw, hplus,
          w32_small hblt, Arm7.restore_cpsr, Arm7.set_reg_i_pc_ne _ _ hb15,
          Arm7.set_reg_i_gpr_self _ _ hb15]
    | true =>
      cases W with
      | false =>
        simp [Arm7.block_data_transfer, Arm7.bdtExec, hg, hrl, hb15, hsum, habw, hplus,
          w32_small hblt, Arm7.restore_cpsr, Arm7.set_reg_i_pc_ne _ _ hb15]
      | true =>
        simp [Arm7.block_data_transfer, Arm7.bdtExec, hg, hrl, hb15, hsum, habw, hplus,
          w32_small hblt, Arm7.restore_cpsr, Arm7.set_reg_i_pc_ne _ _ hb15,
          Arm7.set_reg_i_gpr_self _ _ hb15]

theorem block_empty_rlist_behaviour_witness :
    ((0xE8A10000 : Nat) >>> 25) &&& 7 = 4 ∧
    (0xE8A10000 : Nat) &&& 0xFFFF = 0 ∧
    ((0xE8A10000 : Nat) >>> 16) &&& 0xF ≠ 15 ∧
    c3State.get_reg_i (((0xE8A10000 : Nat) >>> 16) &&& 0xF) < M32 ∧
    onSome (Arm7.block_data_transfer false true false true false c3State 0xE8A10000)
      (fun s' =>
        (true = true → s'.gpr (((0xE8A10000 : Nat) >>> 16) &&& 0xF) =
          w32 (c3State.get_reg_i (((0xE8A10000 : Nat) >>> 16) &&& 0xF) + 0x40)) ∧
        (false = false → s'.trace = c3State.trace ++
          [Ev.rd 32 .N (w32 (c3State.pc &&& 0xFFFFFFFC)),
           Ev.wr 32 .N (c3State.get_reg_i (((0xE8A10000 : Nat) >>> 16) &&& 0xF) -
             (c3State.get_reg_i (((0xE8A10000 : Nat) >>> 16) &&& 0xF) &&& 3))
             (w32 (c3State.pc + 4))]) ∧
        (false = true → s'.trace = c3State.trace ++
          [Ev.rd 32 .N (w32 (c3State.pc &&& 0xFFFFFFFC)),
           Ev.rd 32 .S (c3State.get_reg_i (((0xE8A10000 : Nat) >>> 16) &&& 0xF) -
             (c3State.get_reg_i (((0xE8A10000 : Nat) >>> 16) &&& 0xF) &&& 3)),
           Ev.internal,
           Ev.rd 32 .S (read32m c3State.mem (c3State.get_reg_i
             (((0xE8A10000 : Nat) >>> 16) &&& 0xF) -
             (c3State.get_reg_i (((0xE8A10000 : Nat) >>> 16) &&& 0xF) &&& 3)) &&& 0xFFFFFFFC),
           Ev.rd 32 .S (w32 ((read32m c3State.mem (c3State.get_reg_i
             (((0xE8A10000 : Nat) >>> 16) &&& 0xF) -
             (c3State.get_reg_i (((0xE8A10000 : Nat) >>> 16) &&& 0xF) &&& 3)) &&& 0xFFFFFFFC)
             + 4))])) :=
  ⟨by decide, by decide, by decide, by decide,
    block_empty_rlist_behaviour false false true false c3State 0xE8A10000
      (by decide) (by decide) (by decide) (by decide)⟩

/-- C10: a block data transfer with an empty register list uses register 15
for its single transfer: the store form writes the current program-counter
value plus 4 to the transfer address, and the load form loads the read word
into the program counter and forces a full instruction-buffer refill (the
counter and both buffer slots are refetched at the loaded word). -/
theorem block_empty_rlist_uses_r15 :
    ∀ (P U S W L : Bool) (s : Arm7) (instr : Nat),
      (instr >>> 25) &&& 7 = 4 →
      instr &&& 0xFFFF = 0 →
      (instr >>> 16) &&& 0xF ≠ 15 →
      s.get_reg_i ((instr >>> 16) &&& 0xF) < M32 →
      onSome (Arm7.block_data_transfer P U S W L s instr) (fun s' =>
        (L = false → s'.trace = s.trace ++
          [Ev.rd 32 .N (w32 (s.pc &&& 0xFFFFFFFC)),
           Ev.wr 32 .N (s.get_reg_i ((instr >>> 16) &&& 0xF) -
             (s.get_reg_i ((instr >>> 16) &&& 0xF) &&& 3)) (w32 (s.pc + 4))]) ∧
        (L = true →
          s'.pc = w32 ((read32m s.mem (s.get_reg_i ((instr >>> 16) &&& 0xF) -
            (s.get_reg_i ((instr >>> 16) &&& 0xF) &&& 3)) &&& 0xFFFFFFFC) + 4) ∧
          s'.ibuf0 = read32m s.mem (read32m s.mem (s.get_reg_i ((instr >>> 16) &&& 0xF) -
            (s.get_reg_i ((instr >>> 16) &&& 0xF) &&& 3)) &&& 0xFFFFFFFC) ∧
          s'.ibuf1 = read32m s.mem (w32 ((read32m s.mem
            (s.get_reg_i ((instr >>> 16) &&& 0xF) -
            (s.get_reg_i ((instr >>> 16) &&& 0xF) &&& 3)) &&& 0xFFFFFFFC) + 4)))) := by
  intro P U S W L s instr hg hrl hb15 hblt
  have hboff : s.get_reg_i ((instr >>> 16) &&& 0xF) &&& 3 ≤
      s.get_reg_i ((instr >>> 16) &&& 0xF) := Nat.and_le_left
  have hab : s.get_reg_i ((instr >>> 16) &&& 0xF) -
      (s.get_reg_i ((instr >>> 16) &&& 0xF) &&& 3) < M32 := by omega
  have habw : w32 (s.get_reg_i ((instr >>> 16) &&& 0xF) -
      (s.get_reg_i ((instr >>> 16) &&& 0xF) &&& 3)) =
      s.get_reg_i ((instr >>> 16) &&& 0xF) -
      (s.get_reg_i ((instr >>> 16) &&& 0xF) &&& 3) := w32_small hab
  have hvlt := read32m_lt s.mem (s.get_reg_i ((instr >>> 16) &&& 0xF) -
      (s.get_reg_i ((instr >>> 16) &&& 0xF) &&& 3))
  have hplus : s.get_reg_i ((instr >>> 16) &&& 0xF) -
      (s.get_reg_i ((instr >>> 16) &&& 0xF) &&& 3) +
      (s.get_reg_i ((instr >>> 16) &&& 0xF) &&& 3) =
      s.get_reg_i ((instr >>> 16) &&& 0xF) := by omega
  cases L with
  | false =>
    cases S with
    | false =>
      cases W with
      | false =>
        cases U <;>
          simp [Arm7.block_data_transfer, Arm7.bdtExec, hg, hrl, hb15, habw, hplus,
            w32_small hblt, Arm7.restore_cpsr, Arm7.set_reg_i_pc_ne _ _ hb15]
      | true =>
        cases U <;>
          simp [Arm7.block_data_transfer, Arm7.bdtExec, hg, hrl, hb15, habw, hplus,
            w32_small hblt, Arm7.restore_cpsr, Arm7.set_reg_i_pc_ne _ _ hb15]
    | true =>
      cases W with
      | false =>
        cases U <;>
          simp [Arm7.block_data_transfer, Arm7.bdtExec, hg, hrl, hb15, habw, hplus,
            w32_small hblt, Arm7.restore_cpsr, Arm7.set_reg_i_pc_ne _ _ hb15]
      | true =>
        cases U <;>
          simp [Arm7.block_data_transfer, Arm7.bdtExec, hg, hrl, hb15, habw, hplus,
            w32_small hblt, Arm7.restore_cpsr, Arm7.set_reg_i_pc_ne _ _ hb15]
  | true =>
    cases S with
    | false =>
      cases W with
      | false =>
        cases U <;>
          simp [Arm7.block_data_transfer, Arm7.bdtExec, hg, hrl, hb15, habw, hplus,
            w32_small hblt, Arm7.restore_cpsr, Arm7.set_reg_i_pc_ne _ _ hb15]
      | true =>
        cases U <;>
          simp [Arm7.block_data_transfer, Arm7.bdtExec, hg, hrl, hb15, habw, hplus,
            w32_small hblt, Arm7.restore_cpsr, Arm7.set_reg_i_pc_ne _ _ hb15]
    | true =>
      cases W with
      | false =>
        cases U <;>
          simp [Arm7.block_data_transfer, Arm7.bdtExec, hg, hrl, hb15, habw, hplus,
            w32_small hblt, Arm7.restore_cpsr, Arm7.set_reg_i_pc_ne _ _ hb15]
      | true =>
        cases U <;>
          simp [Arm7.block_data_transfer, Arm7.bdtExec, hg, hrl, hb15, habw, hplus,
            w32_small hblt, Arm7.restore_cpsr, Arm7.set_reg_i_pc_ne _ _ hb15]

/-- A state for the load form of the empty-list witness: `LDMIA r1, {}` with
the word at r1 = 0x1000 holding 0x200. -/
def c10State : Arm7 :=
  { gpr := fun i => if i = 1 then 0x1000 else 0, pc := 8, cpsr := 0xD3, spsr := 0x10,
    mode := .SVC, ibuf0 := 0, ibuf1 := 0,
    mem := fun a => if a = 0x1001 then 2 else 0, trace := [], nextAccess := .S }

theorem block_empty_rlist_uses_r15_witness :
    ((0xE8B10000 : Nat) >>> 25) &&& 7 = 4 ∧
    (0xE8B10000 : Nat) &&& 0xFFFF = 0 ∧
    ((0xE8B10000 : Nat) >>> 16) &&& 0xF ≠ 15 ∧
    c10State.get_reg_i (((0xE8B10000 : Nat) >>> 16) &&& 0xF) < M32 ∧
    (Arm7.block_data_transfer false true false true true c10State 0xE8B10000).map
      (fun s => (s.pc, s.ibuf0)) = some (0x204, 0) ∧
    onSome (Arm7.block_data_transfer false true false true true c10State 0xE8B10000)
      (fun s' =>
        (true = false → s'.trace = c10State.trace ++
          [Ev.rd 32 .N (w32 (c10State.pc &&& 0xFFFFFFFC)),
           Ev.wr 32 .N (c10State.get_reg_i (((0xE8B10000 : Nat) >>> 16) &&& 0xF) -
             (c10State.get_reg_i (((0xE8B10000 : Nat) >>> 16) &&& 0xF) &&& 3))
             (w32 (c10State.pc + 4))]) ∧
        (true = true →
          s'.pc = w32 ((read32m c10State.mem
            (c10State.get_reg_i (((0xE8B10000 : Nat) >>> 16) &&& 0xF) -
            (c10State.get_reg_i (((0xE8B10000 : Nat) >>> 16) &&& 0xF) &&& 3)) &&& 0xFFFFFFFC)
            + 4) ∧
          s'.ibuf0 = read32m c10State.mem (read32m c10State.mem
            (c10State.get_reg_i (((0xE8B10000 : Nat) >>> 16) &&& 0xF) -
            (c10State.get_reg_i (((0xE8B10000 : Nat) >>> 16) &&& 0xF) &&& 3)) &&& 0xFFFFFFFC) ∧
          s'.ibuf1 = read32m c10State.mem (w32 ((read32m c10State.mem
            (c10State.get_reg_i (((0xE8B10000 : Nat) >>> 16) &&& 0xF) -
            (c10State.get_reg_i (((0xE8B10000 : Nat) >>> 16) &&& 0xF) &&& 3)) &&& 0xFFFFFFFC)
            + 4)))) :=
  ⟨by decide, by decide, by decide, by decide, rfl,
    block_empty_rlist_uses_r15 false true false true true c10State 0xE8B10000
      (by decide) (by decide) (by decide) (by decide)⟩

/-- The register-move no-op 0xE1A00000 executed by the data-processing
handler leaves the program counter where it was. -/
theorem dp_mov_nop_pc (s : Arm7) (p : Nat) (hp : s.pc = p) :
    onSome (Arm7.data_proc false false s 0xE1A00000) (fun s2 => s2.pc = p) := by
  simp +decide [Arm7.data_proc, Arm7.dpOp2, Arm7.dpAlu, Arm7.shiftOp, onSome,
    Arm7.get_reg_i, hp, (by decide : (924160 : Nat) &&& 15 = 0),
    Arm7.set_reg_i_pc_ne _ _ (by decide : (0 : Nat) ≠ 15)]

/-- C7: after a reset at a word-aligned entry point, an initial instruction
buffer fill, and one executed instruction that does not write the program
counter (the register-move no-op 0xE1A00000), the visible program counter
equals the entry point plus 8: register 15 reads two instruction words ahead
of the executing instruction. -/
theorem pipeline_offset_invariant (entry : Nat) (mem : Nat → Nat)
    (hlt : entry < M32) (h4 : entry % 4 = 0)
    (hnop : read32m mem entry = 0xE1A00000) :
    onSome (Arm7.reset entry mem).fill_arm_instr_buffer.emulate_arm_instr
      (fun s' => s'.pc = w32 (entry + 8)) := by
  have he : entry &&& 0xFFFFFFFC = entry := land_fc_self hlt h4
  have hg : gen_lut (armKey 0xE1A00000) = InstrClass.data_proc false false := rfl
  have hse : ∀ t : Arm7, Arm7.should_exec t 14 = true := by
    intro t
    simp [Arm7.should_exec]
  simp [Arm7.reset, Arm7.fill_arm_instr_buffer, Arm7.emulate_arm_instr, he]
  rw [hnop, (by decide : (3785359360 : Nat) >>> 28 &&& 15 = 14), hse, hg]
  simp only [if_true, Arm7.execClass]
  exact dp_mov_nop_pc _ _ (by simp [Nat.add_assoc])

/-- The memory for the pipeline-offset witness: the no-op word 0xE1A00000
repeated everywhere. -/
def c7mem : Nat → Nat := fun a =>
  if a % 4 = 2 then 0xA0 else if a % 4 = 3 then 0xE1 else 0

theorem pipeline_offset_invariant_witness :
    (0x1000 : Nat) < M32 ∧ (0x1000 : Nat) % 4 = 0 ∧
    read32m c7mem 0x1000 = 0xE1A00000 ∧
    onSome (Arm7.reset 0x1000 c7mem).fill_arm_instr_buffer.emulate_arm_instr
      (fun s' => s'.pc = w32 (0x1000 + 8)) :=
  ⟨by decide, by decide, by decide,
    pipeline_offset_invariant 0x1000 c7mem (by decide) (by decide) (by decide)⟩

/-! ### Timer-subsystem lemmas -/

@[simp] theorem otIrq_timers (hw : TimersHW) (num : Fin 4) :
    (otIrq hw num).timers = hw.timers := by
  unfold otIrq
  split <;> rfl

@[simp] theorem otIrq_sched (hw : TimersHW) (num : Fin 4) :
    (otIrq hw num).sched = hw.sched := by
  unfold otIrq
  split <;> rfl

@[simp] theorem clock_fst_cnt (t : Timer) : t.clock.1.cnt = t.cnt := by
  unfold Timer.clock
  split_ifs <;> rfl

@[simp] theorem clock_fst_index (t : Timer) : t.clock.1.index = t.index := by
  unfold Timer.clock
  split_ifs <;> rfl

@[simp] theorem create_event_fst_cnt (t : Timer) (sch : Scheduler) (d : Nat) :
    (t.create_event sch d).1.cnt = t.cnt := rfl

@[simp] theorem create_event_fst_index (t : Timer) (sch : Scheduler) (d : Nat) :
    (t.create_event sch d).1.index = t.index := rfl

@[simp] theorem create_event_fst_counter (t : Timer) (sch : Scheduler) (d : Nat) :
    (t.create_event sch d).1.counter = t.counter := rfl

theorem create_event_pending_mem (t : Timer) (sch : Scheduler) (d : Nat)
    (j c : Nat) (h : (j, c) ∈ (t.create_event sch d).2.pending) :
    j = t.index ∨ (j, c) ∈ sch.pending := by
  unfold Timer.create_event Scheduler.schedule at h
  simp only [List.mem_cons, List.mem_filter] at h
  rcases h with h | h
  · left
    exact congrArg Prod.fst h
  · right
    exact h.1

@[simp] theorem otFinish_cnt (hw : TimersHW) (num j : Fin 4) :
    ((otFinish hw num).timers j).cnt = (hw.timers j).cnt := by
  unfold otFinish
  split
  · rcases eq_or_ne j num with rfl | hne
    · simp
    · simp [hne]
  · rfl

@[simp] theorem otFinish_index (hw : TimersHW) (num j : Fin 4) :
    ((otFinish hw num).timers j).index = (hw.timers j).index := by
  unfold otFinish
  split
  · rcases eq_or_ne j num with rfl | hne
    · simp
    · simp [hne]
  · rfl

theorem otFinish_counter (hw : TimersHW) (num j : Fin 4)
    (hj : (hw.timers j).cnt.count_up = true) :
    ((otFinish hw num).timers j).counter = (hw.timers j).counter := by
  unfold otFinish
  split
  case isTrue h =>
    have hne : j ≠ num := by
      intro e
      rw [e] at hj
      simp [hj] at h
    simp [hne]
  case isFalse h => rfl

theorem otFinish_pending_mem (hw : TimersHW) (num : Fin 4) (j c : Nat)
    (h : (j, c) ∈ (otFinish hw num).sched.pending) :
    (j, c) ∈ hw.sched.pending ∨
      (j = (hw.timers num).index ∧ (hw.timers num).cnt.count_up = false) := by
  unfold otFinish at h
  split at h
  case isTrue hcu =>
    rcases create_event_pending_mem _ _ _ _ _ h with h2 | h2
    · right
      exact ⟨h2, by simpa using hcu⟩
    · left
      exact h2
  case isFalse hcu =>
    left
    exact h

theorem otCntIdx : ∀ (k : Nat) (hw : TimersHW) (num : Fin 4), 3 - num.val ≤ k →
    ∀ j, ((onTimerOverflow hw num).1.timers j).cnt = (hw.timers j).cnt ∧
      ((onTimerOverflow hw num).1.timers j).index = (hw.timers j).index := by
  intro k
  induction k with
  | zero =>
    intro hw num hk j
    rw [onTimerOverflow, dif_neg (by omega : ¬num.val + 1 < 4)]
    simp
  | succ k ih =>
    intro hw num hk j
    rw [onTimerOverflow]
    by_cases h4 : num.val + 1 < 4
    case pos =>
      rw [dif_pos h4]
      simp only [otIrq_timers]
      by_cases hcu : (hw.timers ⟨num.val + 1, h4⟩).cnt.count_up = true
      case pos =>
        rw [if_pos hcu]
        split
        case isTrue hov =>
          have hle : 3 - (num.val + 1) ≤ k := by omega
          have ih2 := fun hw2 => ih hw2 ⟨num.val + 1, h4⟩ hle
          simp only [otFinish_cnt, otFinish_index, ih2, otIrq_timers]
          rcases eq_or_ne j ⟨num.val + 1, h4⟩ with rfl | hne
          · simp
          · simp [hne]
        case isFalse hov =>
          simp only [otFinish_cnt, otFinish_index, otIrq_timers]
          rcases eq_or_ne j ⟨num.val + 1, h4⟩ with rfl | hne
          · simp
          · simp [hne]
      case neg =>
        rw [if_neg hcu]
        simp
    case neg =>
      rw [dif_neg h4]
      simp

theorem otPending : ∀ (k : Nat) (hw : TimersHW) (num : Fin 4), 3 - num.val ≤ k →
    ∀ j c, (j, c) ∈ (onTimerOverflow hw num).1.sched.pending →
    (j, c) ∈ hw.sched.pending ∨
      ∃ t : Fin 4, j = (hw.timers t).index ∧ (hw.timers t).cnt.count_up = false := by
  intro k
  induction k with
  | zero =>
    intro hw num hk j c h
    rw [onTimerOverflow, dif_neg (by omega : ¬num.val + 1 < 4)] at h
    rcases otFinish_pending_mem _ _ _ _ h with h2 | h2
    · left
      simpa using h2
    · right
      exact ⟨num, by simpa using h2⟩
  | succ k ih =>
    intro hw num hk j c h
    rw [onTimerOverflow] at h
    by_cases h4 : num.val + 1 < 4
    case pos =>
      rw [dif_pos h4] at h
      simp only [otIrq_timers, otIrq_sched] at h
      have hnn : num ≠ (⟨num.val + 1, h4⟩ : Fin 4) := by
        intro e
        have := congrArg Fin.val e
        simp at this
      by_cases hcu : (hw.timers ⟨num.val + 1, h4⟩).cnt.count_up = true
      case pos =>
        rw [if_pos hcu] at h
        split at h
        case isTrue hov =>
          have hle : 3 - (num.val + 1) ≤ k := by omega
          rcases otFinish_pending_mem _ _ _ _ h with h2 | h2
          · rcases ih _ ⟨num.val + 1, h4⟩ hle j c h2 with h3 | ⟨t, ht1, ht2⟩
            · left
              simpa using h3
            · rcases eq_or_ne t ⟨num.val + 1, h4⟩ with rfl | hne
              · simp only [Function.update_same, clock_fst_cnt, hcu] at ht2
                exact absurd ht2 (by simp)
              · simp only [Function.update_noteq hne] at ht1 ht2
                right
                exact ⟨t, ht1, ht2⟩
          · have hle2 := fun hw2 => otCntIdx k hw2 ⟨num.val + 1, h4⟩ hle
            simp only [hle2, Function.update_noteq hnn] at h2
            right
            exact ⟨num, h2⟩
        case isFalse hov =>
          rcases otFinish_pending_mem _ _ _ _ h with h2 | h2
          · left
            simpa using h2
          · simp only [Function.update_noteq hnn] at h2
            right
            exact ⟨num, h2⟩
      case neg =>
        rw [if_neg hcu] at h
        rcases otFinish_pending_mem _ _ _ _ h with h2 | h2
        · left
          simpa using h2
        · right
          exact ⟨num, by simpa using h2⟩
    case neg =>
      rw [dif_neg h4] at h
      rcases otFinish_pending_mem _ _ _ _ h with h2 | h2
      · left
        simpa using h2
      · right
        exact ⟨num, by simpa using h2⟩

theorem otCounter : ∀ (k : Nat) (hw : TimersHW) (num : Fin 4), 3 - num.val ≤ k →
    ∀ j : Fin 4, (hw.timers j).cnt.count_up = true →
    j.val ∉ (onTimerOverflow hw num).2 →
    ((onTimerOverflow hw num).1.timers j).counter = (hw.timers j).counter := by
  intro k
  induction k with
  | zero =>
    intro hw num hk j hj hnot
    rw [onTimerOverflow, dif_neg (by omega : ¬num.val + 1 < 4)]
    simp [otFinish_counter, hj]
  | succ k ih =>
    intro hw num hk j hj hnot
    rw [onTimerOverflow] at hnot ⊢
    by_cases h4 : num.val + 1 < 4
    case pos =>
      rw [dif_pos h4] at hnot ⊢
      simp only [otIrq_timers, otIrq_sched] at hnot ⊢
      by_cases hcu : (hw.timers ⟨num.val + 1, h4⟩).cnt.count_up = true
      case pos =>
        rw [if_pos hcu] at hnot ⊢
        by_cases hov : (hw.timers ⟨num.val + 1, h4⟩).clock.2 = true
        case pos =>
          rw [if_pos hov] at hnot ⊢
          simp only [List.mem_cons, not_or] at hnot
          have hle : 3 - (num.val + 1) ≤ k := by omega
          have hci := fun hw2 => otCntIdx k hw2 ⟨num.val + 1, h4⟩ hle
          have hne : j ≠ (⟨num.val + 1, h4⟩ : Fin 4) := by
            intro e
            exact hnot.1 (congrArg Fin.val e)
          rw [otFinish_counter _ _ _ (by simp [hci, Function.update_noteq hne, hj])]
          rw [ih _ ⟨num.val + 1, h4⟩ hle j
            (by simp [Function.update_noteq hne, hj]) hnot.2]
          simp [Function.update_noteq hne]
        case neg =>
          rw [if_neg hov] at hnot ⊢
          simp only [List.mem_cons, List.not_mem_nil, or_false] at hnot
          have hne : j ≠ (⟨num.val + 1, h4⟩ : Fin 4) := by
            intro e
            exact hnot (congrArg Fin.val e)
          rw [otFinish_counter _ _ _ (by simp [Function.update_noteq hne, hj])]
          simp [Function.update_noteq hne]
      case neg =>
        rw [if_neg hcu] at hnot ⊢
        simp [otFinish_counter, hj]
    case neg =>
      rw [dif_neg h4] at hnot ⊢
      simp [otFinish_counter, hj]

theorem otLog : ∀ (k : Nat) (hw : TimersHW) (num : Fin 4), 3 - num.val ≤ k →
    (onTimerOverflow hw num).2 =
      List.range' (num.val + 1) (onTimerOverflow hw num).2.length 1 ∧
    ∀ j ∈ (onTimerOverflow hw num).2, ∃ jf : Fin 4, jf.val = j ∧
      (hw.timers jf).cnt.count_up = true := by
  intro k
  induction k with
  | zero =>
    intro hw num hk
    rw [onTimerOverflow, dif_neg (by omega : ¬num.val + 1 < 4)]
    simp
  | succ k ih =>
    intro hw num hk
    rw [onTimerOverflow]
    by_cases h4 : num.val + 1 < 4
    case pos =>
      rw [dif_pos h4]
      simp only [otIrq_timers, otIrq_sched]
      by_cases hcu : (hw.timers ⟨num.val + 1, h4⟩).cnt.count_up = true
      case pos =>
        rw [if_pos hcu]
        by_cases hov : (hw.timers ⟨num.val + 1, h4⟩).clock.2 = true
        case pos =>
          rw [if_pos hov]
          have hle : 3 - (num.val + 1) ≤ k := by omega
          constructor
          · simp only [List.length_cons, List.range'_succ]
            refine List.cons_eq_cons.mpr ⟨rfl, ?_⟩
            exact (ih _ ⟨num.val + 1, h4⟩ hle).1
          · intro j hj
            rcases List.mem_cons.mp hj with rfl | hj2
            · exact ⟨⟨num.val + 1, h4⟩, rfl, hcu⟩
            · rcases (ih _ ⟨num.val + 1, h4⟩ hle).2 j hj2 with ⟨jf, hval, hcu2⟩
              rcases eq_or_ne jf ⟨num.val + 1, h4⟩ with rfl | hne
              · exact ⟨_, hval, hcu⟩
              · simp only [Function.update_noteq hne] at hcu2
                exact ⟨jf, hval, hcu2⟩
        case neg =>
          rw [if_neg hov]
          constructor
          · simp [List.range']
          · intro j hj
            simp only [List.mem_cons, List.not_mem_nil, or_false] at hj
            subst hj
            exact ⟨⟨num.val + 1, h4⟩, rfl, hcu⟩
      case neg =>
        rw [if_neg hcu]
        simp
    case neg =>
      rw [dif_neg h4]
      simp

@[simp] theorem tmcnt_write0_count_up (cnt : TMCNT) (v : Nat) :
    (cnt.write 0 v).count_up = (v % 256).testBit 2 := rfl

@[simp] theorem tmcnt_write0_start (cnt : TMCNT) (v : Nat) :
    (cnt.write 0 v).start = (v % 256).testBit 7 := rfl

theorem remove_mem (sch : Scheduler) (i j c : Nat)
    (h : (j, c) ∈ (sch.remove i).pending) : (j, c) ∈ sch.pending ∧ j ≠ i := by
  unfold Scheduler.remove at h
  simp only [List.mem_filter] at h
  exact ⟨h.1, by simpa using h.2⟩

theorem write2_fst_cnt (t : Timer) (sch : Scheduler) (v : Nat) :
    (Timer.write t sch 2 v).1.cnt = t.cnt.write 0 v := by
  unfold Timer.write
  norm_num
  split_ifs <;> rfl

theorem write2_fst_index (t : Timer) (sch : Scheduler) (v : Nat) :
    (Timer.write t sch 2 v).1.index = t.index := by
  unfold Timer.write
  norm_num
  split_ifs <;> rfl

theorem write2_counter_reload (t : Timer) (sch : Scheduler) (v : Nat)
    (hs : t.cnt.start = false) (h7 : (v % 256).testBit 7 = true)
    (h2 : (v % 256).testBit 2 = true) :
    (Timer.write t sch 2 v).1.counter = t.reload := by
  unfold Timer.write
  norm_num
  simp [hs, h7, h2, TMCNT.write]

theorem write2_countup_pending (t : Timer) (sch : Scheduler) (v : Nat)
    (h2 : (v % 256).testBit 2 = true) :
    (Timer.write t sch 2 v).2.pending = (sch.remove t.index).pending := by
  unfold Timer.write
  norm_num
  simp [h2, TMCNT.write]
  split_ifs <;> rfl

theorem write2_pending_mem (t : Timer) (sch : Scheduler) (v j c : Nat)
    (h : (j, c) ∈ (Timer.write t sch 2 v).2.pending) :
    ((j, c) ∈ sch.pending ∧ j ≠ t.index) ∨
      (j = t.index ∧ (t.cnt.write 0 v).count_up = false) := by
  unfold Timer.write at h
  norm_num at h
  by_cases hcu : (v % 256).testBit 2 = true
  case pos =>
    simp only [tmcnt_write0_count_up, hcu] at h
    norm_num at h
    split_ifs at h <;> exact Or.inl (remove_mem _ _ _ _ h)
  case neg =>
    have hcu2 : (v % 256).testBit 2 = false := by simpa using hcu
    simp only [tmcnt_write0_count_up, hcu2] at h
    norm_num at h
    split_ifs at h <;>
      first
      | exact Or.inl (remove_mem _ _ _ _ h)
      | exact (create_event_pending_mem _ _ _ _ _ h).elim
          (fun he => Or.inr ⟨he, hcu2⟩)
          (fun hm => Or.inl (remove_mem _ _ _ _ hm))

/-- The reachability invariant of the timer subsystem: every timer records its
own index, and no count-up timer has a pending overflow event. -/
def TInv (hw : TimersHW) : Prop :=
  (∀ i : Fin 4, (hw.timers i).index = i.val) ∧
  (∀ i : Fin 4, (hw.timers i).cnt.count_up = true → ∀ c, (i.val, c) ∉ hw.sched.pending)

theorem tinv_init : TInv initTimersHW := by
  constructor
  · intro i
    rfl
  · intro i hcu c hmem
    simp [initTimersHW] at hmem

theorem tinv_write_aux (hw : TimersHW) (i : Fin 4) (byte value : Nat)
    (hsch : (Timer.write (hw.timers i) hw.sched byte value).2 = hw.sched)
    (hcnt : (Timer.write (hw.timers i) hw.sched byte value).1.cnt = (hw.timers i).cnt)
    (hidx2 : (Timer.write (hw.timers i) hw.sched byte value).1.index = (hw.timers i).index)
    (h : TInv hw) : TInv (applyTimerWrite hw i byte value) := by
  obtain ⟨hidx, hpend⟩ := h
  constructor
  · intro t
    rcases eq_or_ne t i with rfl | hne
    · simp [applyTimerWrite, hidx2, hidx]
    · simp [applyTimerWrite, Function.update_noteq hne, hidx]
  · intro t hcu c hmem
    simp only [applyTimerWrite, hsch] at hmem
    rcases eq_or_ne t i with rfl | hne
    · simp only [applyTimerWrite, Function.update_same, hcnt] at hcu
      exact hpend _ hcu c hmem
    · simp only [applyTimerWrite, Function.update_noteq hne] at hcu
      exact hpend _ hcu c hmem

theorem tinv_write (hw : TimersHW) (i : Fin 4) (byte value : Nat) (hb : byte < 4)
    (h : TInv hw) : TInv (applyTimerWrite hw i byte value) := by
  interval_cases byte
  · exact tinv_write_aux hw i 0 value rfl rfl rfl h
  · exact tinv_write_aux hw i 1 value rfl rfl rfl h
  · obtain ⟨hidx, hpend⟩ := h
    constructor
    · intro t
      rcases eq_or_ne t i with rfl | hne
      · simp [applyTimerWrite, write2_fst_index, hidx]
      · simp [applyTimerWrite, Function.update_noteq hne, hidx]
    · intro t hcu c hmem
      simp only [applyTimerWrite] at hmem hcu
      rcases write2_pending_mem _ _ _ _ _ hmem with ⟨hm, hne2⟩ | ⟨heq, hcu2⟩
      · rw [hidx i] at hne2
        rcases eq_or_ne t i with rfl | hne
        · exact absurd rfl hne2
        · simp only [Function.update_noteq hne] at hcu
          exact hpend _ hcu c hm
      · rw [hidx i] at heq
        have hti : t = i := Fin.ext heq
        subst hti
        simp only [Function.update_same, write2_fst_cnt] at hcu
        rw [hcu] at hcu2
        exact absurd hcu2 (by simp)
  · exact tinv_write_aux hw i 3 value rfl rfl rfl h

theorem tinv_fire (hw : TimersHW) (i : Fin 4) (h : TInv hw) :
    TInv (fireOverflow hw i) := by
  obtain ⟨hidx, hpend⟩ := h
  have hle : 3 - i.val ≤ 3 := by omega
  constructor
  · intro t
    show ((onTimerOverflow { hw with sched := hw.sched.remove i.val } i).1.timers t).index
      = t.val
    rw [(otCntIdx 3 _ i hle t).2]
    exact hidx t
  · intro t hcu c hmem
    have hcu2 : (hw.timers t).cnt.count_up = true := by
      have he := (otCntIdx 3 { hw with sched := hw.sched.remove i.val } i hle t).1
      simp only [fireOverflow] at hcu
      rw [he] at hcu
      exact hcu
    simp only [fireOverflow] at hmem
    rcases otPending 3 _ i hle t.val c hmem with hm | ⟨t2, ht1, ht2⟩
    · exact hpend t hcu2 c (remove_mem _ _ _ _ hm).1
    · rw [hidx t2] at ht1
      have : t = t2 := Fin.ext ht1
      subst this
      rw [ht2] at hcu2
      exact absurd hcu2 (by simp)

theorem tinv_step (hw hw2 : TimersHW) (hs : TStep hw hw2) (h : TInv hw) : TInv hw2 := by
  cases hs with
  | write i byte value hb => exact tinv_write hw i byte value hb h
  | fire i c hmem hc => exact tinv_fire hw i h
  | tick =>
    obtain ⟨hidx, hpend⟩ := h
    exact ⟨hidx, fun i hcu c => hpend i hcu c⟩

theorem tinv_reach (hw : TimersHW) (h : TReach hw) : TInv hw := by
  induction h with
  | init => exact tinv_init
  | step h1 h2 ih => exact tinv_step _ _ h2 ih

/-- C8: a count-up timer never has an overflow event pending in the scheduler
(in any reachable timer-subsystem state); a control-byte write that selects
count-up mode leaves the pending set exactly as after removing the timer's own
event and, on a start transition, merely copies the reload value into the
counter; the overflow handler leaves the counter of any count-up timer that
did not receive a cascade clock call untouched; and the cascade log is the
contiguous run of indices directly above the overflowing timer, each entry a
count-up timer clocked by the overflow of its immediately lower neighbour. -/
theorem count_up_timers_cascade_only :
    (∀ hw, TReach hw → ∀ i : Fin 4, (hw.timers i).cnt.count_up = true →
      ∀ c, (i.val, c) ∉ hw.sched.pending) ∧
    (∀ (t : Timer) (sch : Scheduler) (value : Nat),
      (value % 256).testBit 2 = true →
      (Timer.write t sch 2 value).2.pending = (sch.remove t.index).pending ∧
      (t.cnt.start = false → (value % 256).testBit 7 = true →
        (Timer.write t sch 2 value).1.counter = t.reload)) ∧
    (∀ (hw : TimersHW) (num j : Fin 4), (hw.timers j).cnt.count_up = true →
      j.val ∉ (onTimerOverflow hw num).2 →
      ((onTimerOverflow hw num).1.timers j).counter = (hw.timers j).counter) ∧
    (∀ (hw : TimersHW) (num : Fin 4),
      (onTimerOverflow hw num).2 =
        List.range' (num.val + 1) (onTimerOverflow hw num).2.length 1 ∧
      ∀ j ∈ (onTimerOverflow hw num).2, ∃ jf : Fin 4, jf.val = j ∧
        (hw.timers jf).cnt.count_up = true) := by
  refine ⟨?_, ?_, ?_, ?_⟩
  · intro hw hr i hcu c
    exact (tinv_reach hw hr).2 i hcu c
  · intro t sch value h2
    exact ⟨write2_countup_pending t sch value h2,
      fun hs h7 => write2_counter_reload t sch value hs h7 h2⟩
  · intro hw num j hcu hnot
    exact otCounter 3 hw num (by omega) j hcu hnot
  · intro hw num
    exact otLog 3 hw num (by omega)

theorem count_up_timers_cascade_only_witness :
    ((applyTimerWrite initTimersHW 1 2 0x84).timers 1).cnt.count_up = true ∧
    ((1 : Fin 4).val, 5) ∉ (applyTimerWrite initTimersHW 1 2 0x84).sched.pending :=
  ⟨by decide,
    count_up_timers_cascade_only.1 (applyTimerWrite initTimersHW 1 2 0x84)
      (TReach.step TReach.init (TStep.write initTimersHW 1 2 0x84 (by decide)))
      1 (by decide) 5⟩

end NDS
